import Mathlib

set_option maxRecDepth 100000

/-!
Verification development for the statefulset-resize-controller repository.

The Go sources are shallowly embedded: Go strings become lists of bytes
(`GoStr`), Go maps become association lists with Go's zero-value lookup
semantics, the Kubernetes client becomes explicit state passing over a
`World` record, and Go's `error` values become the inductive `GoError`
(with `errors.As`-style unwrapping for the controller's `CriticalError`).
Machine integers are modelled as `Nat`/`Int`; the only place overflow can
occur (CRC accumulators, `int32` conversions) carries an explicit mask.
-/

/-- A Go string, as its byte sequence.  All identifiers handled by the
controller (object names, annotation keys and values, quantity strings)
are ASCII, so each byte is the code point of one character. -/
abbrev GoStr := List Nat

/-- Bytes of an ASCII Lean string literal; used to write concrete inputs. -/
def strBytes (s : String) : GoStr := s.data.map Char.toNat

/-- One byte of Go `strings.ToLower` restricted to ASCII input
(the controller only ever lowercases ASCII names and quantity strings). -/
def goLowerChar (c : Nat) : Nat := if 65 ≤ c ∧ c ≤ 90 then c + 32 else c

/-- Go `strings.ToLower` on ASCII bytes. -/
def goToLower (s : GoStr) : GoStr := s.map goLowerChar

/-- Go `strings.HasPrefix p.Name tpl.Name` becomes `hasPre tpl.Name p.Name`. -/
def hasPre (p s : GoStr) : Bool := p.isPrefixOf s

/-- Go `strings.TrimPrefix s p`: drops `p` when it is a leading segment,
otherwise returns `s` unchanged. -/
def trimPre (p s : GoStr) : GoStr := if p.isPrefixOf s then s.drop p.length else s

/-- ASCII decimal digit test. -/
def isDigitB (c : Nat) : Bool := 48 ≤ c && c ≤ 57

/-- Numeric value of a list of ASCII digits, most significant first. -/
def digitsVal (l : GoStr) : Nat := l.foldl (fun a c => a * 10 + (c - 48)) 0

/-- Go `strconv.Atoi` (64-bit `int`): optional single `+`/`-` sign, then a
non-empty run of decimal digits; `none` models a non-nil error, including
the out-of-range error. -/
def goAtoi (s : GoStr) : Option Int :=
  match s with
  | [] => none
  | c :: rest =>
    let signed : Bool × GoStr :=
      if c = 43 then (false, rest) else if c = 45 then (true, rest) else (false, s)
    let ds := signed.2
    if ds = [] then none
    else if ds.all isDigitB then
      let v : Int := if signed.1 then -(digitsVal ds : Int) else (digitsVal ds : Int)
      if v < -(2 ^ 63) ∨ (2 ^ 63 - 1 : Int) < v then none else some v
    else none

/-- Go `strconv.Itoa`. -/
def goItoa (n : Int) : GoStr :=
  if n < 0 then 45 :: strBytes (Nat.repr n.natAbs) else strBytes (Nat.repr n.natAbs)

/-- Go `int32(x)` conversion of a 64-bit value: two's-complement wrap-around,
written with an explicit modulus. -/
def wrap32 (n : Int) : Int := (n + 2 ^ 31) % 2 ^ 32 - 2 ^ 31

namespace Naming

/-- One shift step of the bitwise CRC with a reflected polynomial `poly`. -/
def crcStep (poly crc : Nat) : Nat :=
  if crc % 2 = 1 then (crc / 2) ^^^ poly else crc / 2

/-- Eight shift steps: one input byte has been absorbed. -/
def crcByte (poly crc : Nat) : Nat :=
  crcStep poly (crcStep poly (crcStep poly (crcStep poly
    (crcStep poly (crcStep poly (crcStep poly (crcStep poly crc)))))))

/-- Go `hash/crc64` with `crc64.MakeTable(crc64.ISO)`: reflected polynomial
`0xD800000000000000`, initial and final complement.  The `% 256` mask makes
explicit that Go feeds single bytes. -/
def crc64iso (s : GoStr) : Nat :=
  (s.foldl (fun crc b => crcByte 0xD800000000000000 (crc ^^^ b % 256)) (2 ^ 64 - 1))
    ^^^ (2 ^ 64 - 1)

/-- Go `hash/crc32` IEEE: reflected polynomial `0xEDB88320`, initial and
final complement. -/
def crc32ieee (s : GoStr) : Nat :=
  (s.foldl (fun crc b => crcByte 0xEDB88320 (crc ^^^ b % 256)) (2 ^ 32 - 1))
    ^^^ (2 ^ 32 - 1)

/-- ASCII byte of one lowercase hex digit. -/
def hexDigitChar (d : Nat) : Nat := if d < 10 then 48 + d else 87 + d

/-- Digit recursion for `natToHex`, with explicit fuel so that the kernel
can evaluate it on concrete inputs; `natToHex` supplies enough fuel. -/
def natToHexAux (fuel n : Nat) : GoStr :=
  match fuel with
  | 0 => []
  | fuel + 1 =>
    if n < 16 then [hexDigitChar n]
    else natToHexAux fuel (n / 16) ++ [hexDigitChar (n % 16)]

/-- Minimal lowercase hex rendering of a natural number, as Go's `%x` verb. -/
def natToHex (n : Nat) : GoStr := natToHexAux (n + 1) n

/-- Go `fmt.Sprintf "%16x"`: hex, right-aligned in a field of width 16,
padded with SPACES (byte 32).  `fmt` never truncates. -/
def goFmt16x (n : Nat) : GoStr :=
  List.replicate (16 - (natToHex n).length) 32 ++ natToHex n

/-- Go `fmt.Sprintf "%08x"`: hex, zero-padded to width 8. -/
def goFmt08x (n : Nat) : GoStr :=
  List.replicate (8 - (natToHex n).length) 48 ++ natToHex n

/-- Model of `naming.ShortenName64` (naming package): keep `s` when it fits,
reject bounds below 16, otherwise truncate to `l - 16` bytes and append
the CRC-64 rendered through `%16x`. -/
def shortenName64 (s : GoStr) (l : Int) : Except GoStr GoStr :=
  if (s.length : Int) ≤ l then .ok s
  else if l < 16 then .error (strBytes "cannot shorten below 16 characters")
  else .ok (s.take (l - 16).toNat ++ goFmt16x (crc64iso s))

/-- Model of `naming.ShortenName32`: as above with bound 8 and CRC-32 through `%08x`. -/
def shortenName32 (s : GoStr) (l : Int) : Except GoStr GoStr :=
  if (s.length : Int) ≤ l then .ok s
  else if l < 8 then .error (strBytes "cannot shorten below 8 characters")
  else .ok (s.take (l - 8).toNat ++ goFmt08x (crc32ieee s))

/-- Model of `naming.ShortenName`: dispatches on the requested length. -/
def shortenName (s : GoStr) (l : Int) : Except GoStr GoStr :=
  if (s.length : Int) ≤ l then .ok s
  else if l > 32 then shortenName64 s l
  else shortenName32 s l

end Naming

/-- The controller's Go error values.  `critical` is the
`controllers.CriticalError` struct (fields `Err`, `Event`, `SaveToScaleUp`);
`wrap` is `fmt.Errorf` with a `%w` verb; `plain` is `errors.New` /
a leaf error such as `strconv`'s. -/
inductive GoError where
  | plain (msg : GoStr)
  | wrap (msg : GoStr) (inner : GoError)
  | critical (err : GoError) (event : GoStr) (saveToScaleUp : Bool)
deriving DecidableEq

/-- Model of `controllers.isCritical`: `errors.As(err, &CriticalError{})` walks the
`Unwrap` chain and yields the first `CriticalError`, or `nil`. -/
def isCritical : GoError → Option GoError
  | .plain _ => none
  | .wrap _ inner => isCritical inner
  | e@(.critical _ _ _) => some e

namespace Pvc

/-- A `resource.Quantity`: `val` is the numeric value (at a fixed scale;
`Cmp` compares these), `str` is the cached string that `String()` returns. -/
structure Quantity where
  val : Int
  str : GoStr
deriving DecidableEq

/-- The fields of `corev1.PersistentVolumeClaimSpec` used by the controller.
Pointer-typed Go fields are `Option`; `volumeName` keeps Go's `""` zero
value. -/
structure PVCSpec where
  accessModes : List GoStr
  reqStorage : Quantity
  storageClassName : Option GoStr
  volumeMode : Option GoStr
  volumeName : GoStr
deriving DecidableEq

/-- Model of `pvc.Entity` (pvc/pvc.go): the descriptor of one resizable volume.
The Go field `Namespace` is called `ns` here (`namespace` is a Lean
keyword). -/
structure Entity where
  ns : GoStr
  sourceName : GoStr
  labels : List (GoStr × GoStr)
  spec : PVCSpec
  targetSize : Quantity
  backedUp : Bool
  restored : Bool
deriving DecidableEq

/-- Model of `pvc.NewEntity`. -/
def newEntity (name ns : GoStr) (labels : List (GoStr × GoStr)) (spec : PVCSpec)
    (growTo : Quantity) : Entity :=
  { ns := ns, sourceName := name, labels := labels, spec := spec,
    targetSize := growTo, backedUp := false, restored := false }

/-- Model of `Entity.BackupName` (pvc/pvc.go): lowercase of the shortened source name
followed by `-backup-<size-string>`.  A `ShortenName` error leaves Go's
zero-value `""` in `name`; the code ignores the error. -/
def backupName (pi : Entity) : GoStr :=
  let q := pi.spec.reqStorage
  let suffix := strBytes "-backup-" ++ q.str
  let name := (Naming.shortenName pi.sourceName (63 - (suffix.length : Int))).toOption.getD []
  goToLower (name ++ suffix)

/-- A PVC object as stored in the cluster (the fields this revision of the
controller reads; PVC annotations are never consulted). -/
structure PvcObj where
  name : GoStr
  ns : GoStr
  labels : List (GoStr × GoStr)
  spec : PVCSpec
deriving DecidableEq

/-- Model of `Entity.GetBackup` (pvc/pvc.go): desired backup volume, managed label
set, spec carried over at the CURRENT source size. -/
def getBackup (pi : Entity) : PvcObj :=
  { name := backupName pi
    ns := pi.ns
    labels := [(strBytes "sts-resize.vshn.net/managed", strBytes "true")]
    spec := { accessModes := pi.spec.accessModes
              reqStorage := pi.spec.reqStorage
              storageClassName := pi.spec.storageClassName
              volumeMode := pi.spec.volumeMode
              volumeName := [] } }

/-- Model of `pvc.Info` (pvc/info.go): same fields as `Entity`, but its
`BackupName` does not shorten the source name. -/
structure Info where
  ns : GoStr
  sourceName : GoStr
  labels : List (GoStr × GoStr)
  spec : PVCSpec
  targetSize : Quantity
  backedUp : Bool
  restored : Bool
deriving DecidableEq

/-- Model of `Info.BackupName` (pvc/info.go): plain `<source>-backup-<size>`
lowercased. -/
def backupNameInfo (pi : Info) : GoStr :=
  goToLower (pi.sourceName ++ strBytes "-backup-" ++ pi.spec.reqStorage.str)

/-- Model of `Info.GetResizedSource` (pvc/info.go): the original volume recreated
with `requests.storage` replaced by the target size. -/
def getResizedSourceInfo (pi : Info) : PvcObj :=
  { name := pi.sourceName
    ns := pi.ns
    labels := pi.labels
    spec := { accessModes := pi.spec.accessModes
              reqStorage := pi.targetSize
              storageClassName := pi.spec.storageClassName
              volumeMode := pi.spec.volumeMode
              volumeName := [] } }

end Pvc

namespace Sts

/-- Go map lookup with the zero-value convention: a missing key reads as
`""`, exactly as `s.sts.Annotations[k]` does on a Go (possibly nil) map. -/
def annotLookup (annots : List (GoStr × GoStr)) (k : GoStr) : GoStr :=
  ((annots.find? (fun p => p.1 == k)).map (fun p => p.2)).getD []

/-- Go map assignment `annots[k] = v`. -/
def annotSet (annots : List (GoStr × GoStr)) (k v : GoStr) : List (GoStr × GoStr) :=
  (k, v) :: annots.filter (fun p => p.1 != k)

/-- Go `delete(annots, k)`. -/
def annotDel (annots : List (GoStr × GoStr)) (k : GoStr) : List (GoStr × GoStr) :=
  annots.filter (fun p => p.1 != k)

/-- Model of `statefulset.ReplicasAnnotation` (scale.go). -/
def replicasKey : GoStr := strBytes "sts-resize.vshn.net/replicas"

/-- Model of `statefulset.ScaleUpAnnotation` (scale.go). -/
def scalupKey : GoStr := strBytes "sts-resize.vshn.net/scalup"

/-- The StatefulSet fields read and written by `statefulset.Entity`
(scale.go): `Spec.Replicas` is a nullable pointer, `Status.Replicas` and
`Status.CurrentRevision` are the observed state. -/
structure StsObj where
  specReplicas : Option Int
  statusReplicas : Int
  currentRevision : GoStr
  annots : List (GoStr × GoStr)
deriving DecidableEq

/-- Model of `Entity.isScaledDown` (scale.go). -/
def isScaledDown (s : StsObj) : Bool :=
  s.specReplicas == some 0 && s.currentRevision != [] && s.statusReplicas == 0

/-- Model of `Entity.isScalingUp` (scale.go). -/
def isScalingUp (s : StsObj) : Bool :=
  annotLookup s.annots scalupKey == strBytes "true"

/-- Model of `Entity.isScaledUp` (scale.go). -/
def isScaledUp (s : StsObj) (scale : Int) : Bool :=
  s.specReplicas == some scale && s.currentRevision != [] && s.statusReplicas == scale

/-- Model of `Entity.saveOriginalReplicaCount` (scale.go).  Dereferences
`s.sts.Spec.Replicas`, so a nil pointer makes the whole call panic:
`none` models that panic. -/
def saveOriginalReplicaCount (s : StsObj) : Option StsObj :=
  if annotLookup s.annots replicasKey = [] then
    match s.specReplicas with
    | none => none
    | some r => some { s with annots := annotSet s.annots replicasKey (goItoa r) }
  else some s

/-- Model of `Entity.PrepareScaleDown` (scale.go).  `none` models the Go panic on a
nil `Spec.Replicas`; otherwise the pair is the mutated object and the
returned bool. -/
def prepareScaleDown (s : StsObj) : Option (StsObj × Bool) :=
  if isScaledDown s || isScalingUp s then some (s, true)
  else
    match saveOriginalReplicaCount s with
    | none => none
    | some s1 => some ({ s1 with specReplicas := some 0 }, false)

/-- Model of `Entity.getOriginalReplicaCount` (scale.go): `strconv.Atoi` of the
`replicas` annotation, then the `int32` conversion applied by the caller. -/
def getOriginalReplicaCount (s : StsObj) : Option Int :=
  (goAtoi (annotLookup s.annots replicasKey)).map wrap32

/-- Model of `Entity.PrepareScaleUp` (scale.go).  The parse failure is wrapped with
`fmt.Errorf("failed to get original scale as %s is not readable: %w", ...)`
- a plain wrapped error, not a `CriticalError`. -/
def prepareScaleUp (s : StsObj) : Except GoError (StsObj × Bool) :=
  match getOriginalReplicaCount s with
  | none =>
    .error (.wrap (strBytes "failed to get original scale as sts-resize.vshn.net/replicas is not readable")
      (.plain (strBytes "strconv.Atoi: parsing: invalid syntax")))
  | some scale =>
    if isScaledUp s scale then
      let s1 := { s with annots := annotDel s.annots scalupKey }
      let s2 := { s1 with annots := annotDel s1.annots replicasKey }
      .ok (s2, true)
    else
      let s1 := { s with annots := annotSet s.annots scalupKey (strBytes "true") }
      .ok ({ s1 with specReplicas := some scale }, false)

end Sts

namespace Ctl

/-- Job condition types; `other` covers the remaining `batchv1` types. -/
inductive JCType where
  | complete
  | failed
  | other
deriving DecidableEq

/-- Condition status (`corev1.ConditionTrue` / `False` / `Unknown`). -/
inductive CStatus where
  | condTrue
  | condFalse
  | condUnknown
deriving DecidableEq

/-- One entry of `job.Status.Conditions`. -/
structure JobCond where
  condType : JCType
  status : CStatus
deriving DecidableEq

/-- The fields of a `batchv1.Job` used by the copy engine. -/
structure JobObj where
  name : GoStr
  ns : GoStr
  labels : List (GoStr × GoStr)
  image : GoStr
  saName : GoStr
  srcClaim : GoStr
  dstClaim : GoStr
  conds : List JobCond
deriving DecidableEq

/-- A `corev1.ServiceAccount` as used by the copy engine. -/
structure SAObj where
  name : GoStr
  ns : GoStr
  labels : List (GoStr × GoStr)
deriving DecidableEq

/-- An `rbacv1.RoleBinding` as used by the copy engine. -/
structure RBObj where
  name : GoStr
  ns : GoStr
  labels : List (GoStr × GoStr)
  roleName : GoStr
  saName : GoStr
deriving DecidableEq

/-- Model of `client.ObjectKey`. -/
structure ObjKey where
  name : GoStr
  ns : GoStr
deriving DecidableEq

/-- Kind tag for recorded deletions. -/
inductive DelKind where
  | jobKind
  | pvcKind
  | saKind
  | rbKind
deriving DecidableEq

/-- A deletion issued against the cluster, with its propagation policy. -/
structure DelRec where
  kind : DelKind
  ns : GoStr
  name : GoStr
  propagation : Option GoStr
deriving DecidableEq

/-- The observable cluster state threaded through the controller.
`copyCalls` is a ghost log recording each invocation of `copyPVC`
(source key, destination key); it lets theorems speak about "the copy
was invoked" without changing any behaviour. -/
structure World where
  pvcs : List Pvc.PvcObj
  jobs : List JobObj
  sas : List SAObj
  rbs : List RBObj
  dels : List DelRec
  copyCalls : List (ObjKey × ObjKey)
deriving DecidableEq

/-- Model of `client.Get` on PVCs: `none` is the NotFound error. -/
def findPvc (w : World) (ns name : GoStr) : Option Pvc.PvcObj :=
  w.pvcs.find? (fun p => p.ns == ns && p.name == name)

/-- Model of `client.Get` on Jobs. -/
def findJob (w : World) (ns name : GoStr) : Option JobObj :=
  w.jobs.find? (fun j => j.ns == ns && j.name == name)

/-- Model of `client.Get` on ServiceAccounts. -/
def findSA (w : World) (ns name : GoStr) : Option SAObj :=
  w.sas.find? (fun s => s.ns == ns && s.name == name)

/-- Model of `client.Get` on RoleBindings. -/
def findRB (w : World) (ns name : GoStr) : Option RBObj :=
  w.rbs.find? (fun r => r.ns == ns && r.name == name)

/-- Model of `client.Create` on a PVC. -/
def createPvc (w : World) (p : Pvc.PvcObj) : World :=
  { w with pvcs := w.pvcs ++ [p] }

/-- Model of `client.Delete` on a PVC (no propagation policy is passed). -/
def deletePvc (w : World) (ns name : GoStr) : World :=
  { w with
    pvcs := w.pvcs.filter (fun q => !(q.ns == ns && q.name == name))
    dels := w.dels ++ [⟨.pvcKind, ns, name, none⟩] }

/-- Model of `client.Delete` on a Job with the given propagation policy. -/
def deleteJob (w : World) (ns name : GoStr) (prop : Option GoStr) : World :=
  { w with
    jobs := w.jobs.filter (fun j => !(j.ns == ns && j.name == name))
    dels := w.dels ++ [⟨.jobKind, ns, name, prop⟩] }

/-- Model of `client.Delete` on a ServiceAccount. -/
def deleteSA (w : World) (ns name : GoStr) (prop : Option GoStr) : World :=
  { w with
    sas := w.sas.filter (fun s => !(s.ns == ns && s.name == name))
    dels := w.dels ++ [⟨.saKind, ns, name, prop⟩] }

/-- Model of `client.Delete` on a RoleBinding. -/
def deleteRB (w : World) (ns name : GoStr) (prop : Option GoStr) : World :=
  { w with
    rbs := w.rbs.filter (fun r => !(r.ns == ns && r.name == name))
    dels := w.dels ++ [⟨.rbKind, ns, name, prop⟩] }

/-- Model of `controllers.newJobName` (copy.go): both claim names shortened to 27
characters, then `sync-<src>-to-<dst>` lowercased.  The ignored errors
cannot occur (27 ≥ 8). -/
def newJobName (src dst : GoStr) : GoStr :=
  let src1 := (Naming.shortenName src 27).toOption.getD []
  let dst1 := (Naming.shortenName dst 27).toOption.getD []
  goToLower (strBytes "sync-" ++ src1 ++ strBytes "-to-" ++ dst1)

/-- Model of `controllers.newJob` (copy.go): the one-shot rsync worker (container
command and mounts are fixed and omitted from the model). -/
def newJob (ns image saname src dst : GoStr) : JobObj :=
  { name := newJobName src dst
    ns := ns
    labels := [(strBytes "sts-resize.vshn.net/managed", strBytes "true")]
    image := image
    saName := saname
    srcClaim := src
    dstClaim := dst
    conds := [] }

/-- Model of `controllers.newSA` (copy.go). -/
def newSA (ns : GoStr) : SAObj :=
  { name := strBytes "sts-resize-sync-job"
    ns := ns
    labels := [(strBytes "sts-resize.vshn.net/managed", strBytes "true")] }

/-- Model of `controllers.newRB` (copy.go). -/
def newRB (ns saname crname : GoStr) : RBObj :=
  { name := strBytes "sts-resize-sync-job"
    ns := ns
    labels := [(strBytes "sts-resize.vshn.net/managed", strBytes "true")]
    roleName := crname
    saName := saname }

/-- Model of `controllers.getOrCreateJob` (copy.go): the found object wins. -/
def getOrCreateJob (w : World) (job : JobObj) : World × JobObj :=
  match findJob w job.ns job.name with
  | some found => (w, found)
  | none => ({ w with jobs := w.jobs ++ [job] }, job)

/-- Model of `controllers.getOrCreateSA` (copy.go). -/
def getOrCreateSA (w : World) (sa : SAObj) : World × SAObj :=
  match findSA w sa.ns sa.name with
  | some found => (w, found)
  | none => ({ w with sas := w.sas ++ [sa] }, sa)

/-- Model of `controllers.getOrCreateRB` (copy.go). -/
def getOrCreateRB (w : World) (rb : RBObj) : World × RBObj :=
  match findRB w rb.ns rb.name with
  | some found => (w, found)
  | none => ({ w with rbs := w.rbs ++ [rb] }, rb)

/-- Loop body of `controllers.isJobDone` (copy.go): conditions whose status
is not `True` are skipped; the first `Complete` yields success, the first
`Failed` yields a `CriticalError`. -/
def jobDoneConds (jname : GoStr) : List JobCond → Bool × Option GoError
  | [] => (false, none)
  | c :: rest =>
    if c.status != .condTrue then jobDoneConds jname rest
    else if c.condType == .complete then (true, none)
    else if c.condType == .failed then
      (true, some (.critical (.plain (strBytes "job " ++ jname ++ strBytes " failed")) [] false))
    else jobDoneConds jname rest

/-- Model of `controllers.isJobDone` (copy.go). -/
def isJobDone (j : JobObj) : Bool × Option GoError :=
  jobDoneConds j.name j.conds

/-- The `if r.SyncClusterRole != ""` block at the top of `copyPVC`
(copy.go): get-or-create the ServiceAccount and RoleBinding, yielding the
service-account name to put on the job. -/
def ensureRbac (role ns : GoStr) (w : World) : World × GoStr :=
  if role ≠ [] then
    let ws := getOrCreateSA w (newSA ns)
    let wr := getOrCreateRB ws.1 (newRB ns ws.2.name role)
    (wr.1, ws.2.name)
  else (w, [])

/-- The RoleBinding/ServiceAccount cleanup block of `copyPVC` (copy.go),
run after a completed job is deleted. -/
def cleanupRbac (role ns : GoStr) (w : World) : World :=
  if role ≠ [] then
    deleteSA
      (deleteRB w ns (strBytes "sts-resize-sync-job") (some (strBytes "Foreground")))
      ns (strBytes "sts-resize-sync-job") (some (strBytes "Foreground"))
  else w

/-- Model of `controllers.(*StatefulSetReconciler).copyPVC` (copy.go).  Role and
image are the reconciler's `SyncClusterRole` and `SyncContainerImage`.
A cross-namespace pair fails with a PLAIN `errors.New` error; on a
completed job the worker (and, when a role is configured, the RoleBinding
and ServiceAccount) is deleted with foreground propagation and the delete
errors are discarded (`return done, nil`). -/
def copyPVC (role image : GoStr) (src dst : ObjKey) (w0 : World) :
    World × Bool × Option GoError :=
  let w := { w0 with copyCalls := w0.copyCalls ++ [(src, dst)] }
  if src.ns ≠ dst.ns then
    (w, false, some (.plain (strBytes "unable to copy across namespaces")))
  else
    let step1 := ensureRbac role src.ns w
    let w1 := step1.1
    let saname := step1.2
    let got := getOrCreateJob w1 (newJob src.ns image saname src.name dst.name)
    let w2 := got.1
    let job := got.2
    let de := isJobDone job
    if de.2.isSome then (w2, de.1, de.2)
    else if de.1 then
      let w3 := deleteJob w2 job.ns job.name (some (strBytes "Foreground"))
      (cleanupRbac role src.ns w3, de.1, none)
    else (w2, de.1, none)

/-- Model of `controllers.(*StatefulSetReconciler).resizeSource`
(controllers/pvc.go, `pvc.Info` revision): recreate or replace the original
volume.  Note the absent case returns `true` together with `r.Create`'s
(nil) error, so the caller proceeds immediately. -/
def resizeSource (pi : Pvc.Info) (w : World) : World × Bool × Option GoError :=
  let source := Pvc.getResizedSourceInfo pi
  match findPvc w source.ns source.name with
  | none => (createPvc w source, true, none)
  | some found =>
    if found.spec.reqStorage.val < pi.targetSize.val then
      (deletePvc w found.ns found.name, false, none)
    else (w, true, none)

/-- Model of `controllers.(*StatefulSetReconciler).restorePVC`
(controllers/pvc.go, `pvc.Info` revision). -/
def restorePVC (role image : GoStr) (pi : Pvc.Info) (w : World) :
    World × Pvc.Info × Bool × Option GoError :=
  if pi.restored then (w, pi, true, none)
  else
    let rs := resizeSource pi w
    if rs.2.2.isSome || !rs.2.1 then (rs.1, pi, rs.2.1, rs.2.2)
    else
      let cp := copyPVC role image
        { name := Pvc.backupNameInfo pi, ns := pi.ns }
        { name := pi.sourceName, ns := pi.ns } rs.1
      if cp.2.2.isSome || !cp.2.1 then (cp.1, pi, cp.2.1, cp.2.2)
      else (cp.1, { pi with restored := true }, true, none)

/-- Model of `controllers.(StatefulSetReconciler).createBackupIfNotExists`
(backup step, `pvc.Entity` revision): get-or-create of the backup volume;
an existing object whose spec differs from `GetBackup().Spec`
(`reflect.DeepEqual`) yields a PLAIN `errors.New` error. -/
def createBackupIfNotExists (pi : Pvc.Entity) (w : World) : World × Option GoError :=
  match findPvc w pi.ns (Pvc.backupName pi) with
  | none => (createPvc w (Pvc.getBackup pi), none)
  | some found =>
    if found.spec ≠ (Pvc.getBackup pi).spec then
      (w, some (.plain (strBytes "exiting backup does not match requirements")))
    else (w, none)

/-- Model of `controllers.(StatefulSetReconciler).backupPVC` (backup step,
`pvc.Entity` revision).  NOTE: the Go source assigns
`err := r.createBackupIfNotExists(ctx, pi)` and immediately shadows `err`
with the result of `r.copyPVC` without ever reading it - the mismatch
error is discarded, which the embedding mirrors. -/
def backupPVC (role image : GoStr) (pi : Pvc.Entity) (w : World) :
    World × Pvc.Entity × Bool × Option GoError :=
  if pi.backedUp then (w, pi, true, none)
  else
    let cb := createBackupIfNotExists pi w
    let cp := copyPVC role image
      { name := pi.sourceName, ns := pi.ns }
      { name := Pvc.backupName pi, ns := pi.ns } cb.1
    let pi1 := if cp.2.2 == none && cp.2.1 then { pi with backedUp := true } else pi
    (cp.1, pi1, cp.2.1, cp.2.2)

/-- One volume-claim template of the StatefulSet (name and requested
storage; the storage class is not needed by the filter predicate). -/
structure VolTpl where
  name : GoStr
  reqStorage : Pvc.Quantity
deriving DecidableEq

/-- The StatefulSet fields used by `filterResizablePVCs`. -/
structure StsShape where
  name : GoStr
  ns : GoStr
  tpls : List VolTpl
deriving DecidableEq

/-- Model of `controllers.isGreaterStorageRequest` (pvc filter):
`q.Cmp(template) < 0`. -/
def isGreaterStorageRequest (p : Pvc.PvcObj) (tpl : VolTpl) : Bool :=
  p.spec.reqStorage.val < tpl.reqStorage.val

/-- Model of `controllers.isPVCTooSmall` (pvc filter): the prefix-and-trim name
match followed by the size comparison.  `strconv.Atoi` also accepts
signed integers. -/
def isPVCTooSmall (p : Pvc.PvcObj) (tpl : VolTpl) (stsName : GoStr) : Bool :=
  if !hasPre tpl.name p.name then false
  else
    let n1 := trimPre (tpl.name ++ [45]) p.name
    if !hasPre stsName n1 then false
    else
      let n2 := trimPre (stsName ++ [45]) n1
      if (goAtoi n2).isNone then false
      else isGreaterStorageRequest p tpl

/-- Inner loop of `filterResizablePVCs`: first template accepted by
`isPVCTooSmall` (the Go loop `break`s after the first hit). -/
def findTooSmallTpl (p : Pvc.PvcObj) (stsName : GoStr) : List VolTpl → Option VolTpl
  | [] => none
  | tpl :: rest =>
    if isPVCTooSmall p tpl stsName then some tpl else findTooSmallTpl p stsName rest

/-- Model of `controllers.filterResizablePVCs` (pvc filter): namespace check, then
the per-template match; a hit contributes `pvc.NewEntity p target`
(the later revision also forwards the template storage class, which the
`pvc.Entity` of pvc/pvc.go does not store). -/
def filterResizablePVCs (sts : StsShape) : List Pvc.PvcObj → List Pvc.Entity
  | [] => []
  | p :: rest =>
    if p.ns ≠ sts.ns then filterResizablePVCs sts rest
    else
      match findTooSmallTpl p sts.name sts.tpls with
      | some tpl =>
        Pvc.newEntity p.name p.ns p.labels p.spec tpl.reqStorage :: filterResizablePVCs sts rest
      | none => filterResizablePVCs sts rest

/-- Whether the job has a condition of type `t` with status `True`. -/
def hasCondTrue (conds : List JobCond) (t : JCType) : Bool :=
  conds.any (fun c => c.status == .condTrue && c.condType == t)

end Ctl

/-! ### Spec-side definitions

These follow the words of the specification (not the source); they exist
so that claims can be compared against the code. -/

/-- Modelled from the spec: the `hex(CRC-64(s))` suffix of §4.1 read as
"the 16-character hex" of the checksum, i.e. zero-padded hex - the
standard fixed-width hex rendering.  To be compared with the source's
`goFmt16x`, which pads with spaces. -/
def specHex16 (n : Nat) : GoStr :=
  List.replicate (16 - (Naming.natToHex n).length) 48 ++ Naming.natToHex n

/-- Lowercase-alphanumeric ASCII byte. -/
def isLowerAlnumB (c : Nat) : Bool :=
  (48 ≤ c && c ≤ 57) || (97 ≤ c && c ≤ 122)

/-- ASCII letter (either case). -/
def isAsciiLetterB (c : Nat) : Bool :=
  (65 ≤ c && c ≤ 90) || (97 ≤ c && c ≤ 122)

/-- Lowercase hex digit byte. -/
def isLowerHexB (c : Nat) : Bool :=
  (48 ≤ c && c ≤ 57) || (97 ≤ c && c ≤ 102)

/-- Full match against `[a-z0-9]([-a-z0-9]*[a-z0-9])?`: non-empty, first
and last byte lowercase-alphanumeric, every byte lowercase-alphanumeric
or `-`. -/
def matchesLabelRegex (s : GoStr) : Bool :=
  match s.head?, s.getLast? with
  | some a, some b =>
    isLowerAlnumB a && isLowerAlnumB b && s.all (fun c => isLowerAlnumB c || c == 45)
  | _, _ => false

/-- Modelled from the spec: a volume name of the exact form
`<template>-<statefulset>-<ordinal>` where the trailing component parses
as a NON-NEGATIVE integer (claim C1's reading). -/
def specNameFormB (tplName stsName nm : GoStr) : Bool :=
  hasPre (tplName ++ [45] ++ stsName ++ [45]) nm &&
    (match goAtoi (nm.drop (tplName.length + 1 + stsName.length + 1)) with
     | some v => decide (0 ≤ v)
     | none => false)

/-- Modelled from the spec: claim C1's characterisation of a pending
volume - same namespace, spec-form name for some template, and strictly
smaller storage request than that template. -/
def specPendingB (sts : Ctl.StsShape) (p : Pvc.PvcObj) : Bool :=
  p.ns == sts.ns &&
    sts.tpls.any (fun tpl =>
      specNameFormB tpl.name sts.name p.name && Ctl.isGreaterStorageRequest p tpl)

/-! ### Concrete inputs for counterexamples and witnesses -/

/-- A minimal PVC spec with the given storage request. -/
def mkSpec (v : Int) (s : String) : Pvc.PVCSpec :=
  { accessModes := [], reqStorage := ⟨v, strBytes s⟩, storageClassName := none,
    volumeMode := none, volumeName := [] }

/-- A cluster with no objects. -/
def emptyWorld : Ctl.World :=
  { pvcs := [], jobs := [], sas := [], rbs := [], dels := [], copyCalls := [] }

/-- C1: StatefulSet `test` in `foo` with template `data` requesting 10G. -/
def c1sts : Ctl.StsShape :=
  { name := strBytes "test", ns := strBytes "foo",
    tpls := [{ name := strBytes "data", reqStorage := ⟨10, strBytes "10G"⟩ }] }

/-- C1: a 1G volume named `data-test--1` - the trailing component is the
NEGATIVE integer `-1`, which `strconv.Atoi` accepts. -/
def c1pvc : Pvc.PvcObj :=
  { name := strBytes "data-test--1", ns := strBytes "foo", labels := [],
    spec := mkSpec 1 "1G" }

/-- C1 witness volume: the ordinary `data-test-0` at 1G. -/
def c1pvcW : Pvc.PvcObj :=
  { name := strBytes "data-test-0", ns := strBytes "foo", labels := [],
    spec := mkSpec 1 "1G" }

/-- C2: source volume key. -/
def c2src : Ctl.ObjKey := { name := strBytes "src-pvc", ns := strBytes "ns" }

/-- C2: destination volume key. -/
def c2dst : Ctl.ObjKey := { name := strBytes "dst-pvc", ns := strBytes "ns" }

/-- C2: an observed copy job for (c2src, c2dst) whose `Complete` condition
is true. -/
def c2job : Ctl.JobObj :=
  { name := Ctl.newJobName (strBytes "src-pvc") (strBytes "dst-pvc")
    ns := strBytes "ns", labels := [], image := [], saName := []
    srcClaim := strBytes "src-pvc", dstClaim := strBytes "dst-pvc"
    conds := [{ condType := .complete, status := .condTrue }] }

/-- C2: a world containing exactly that job. -/
def c2w : Ctl.World := { emptyWorld with jobs := [c2job] }

/-- C3: a descriptor whose original (1G, target 2G) is absent from the
cluster. -/
def c3pi : Pvc.Info :=
  { ns := strBytes "ns", sourceName := strBytes "data-web-0", labels := []
    spec := mkSpec 1 "1G", targetSize := ⟨2, strBytes "2G"⟩
    backedUp := true, restored := false }

/-- C4 witness: a workload at 3 replicas, not quiesced, no annotations. -/
def c4sts : Sts.StsObj :=
  { specReplicas := some 3, statusReplicas := 3,
    currentRevision := strBytes "rev", annots := [] }

/-- C4 witness: the expected result of `PrepareScaleDown` on `c4sts`. -/
def c4out : Sts.StsObj × Bool :=
  ({ specReplicas := some 0, statusReplicas := 3,
     currentRevision := strBytes "rev",
     annots := [(Sts.replicasKey, strBytes "3")] }, false)

/-- C5: a workload whose `replicas` annotation is unparseable. -/
def c5sts : Sts.StsObj :=
  { specReplicas := some 4, statusReplicas := 4,
    currentRevision := strBytes "rev",
    annots := [(Sts.replicasKey, strBytes "NaN")] }

/-- C5: the error `PrepareScaleUp` produces on `c5sts` - a plain wrapped
parse error, carrying no `CriticalError` in its chain. -/
def c5err : GoError :=
  .wrap (strBytes "failed to get original scale as sts-resize.vshn.net/replicas is not readable")
    (.plain (strBytes "strconv.Atoi: parsing: invalid syntax"))

/-- C5 witness: a resumed workload (desired = observed = 2, fresh
revision marker) with `replicas = "2"` and `scalup = "true"` set. -/
def c5stsW : Sts.StsObj :=
  { specReplicas := some 2, statusReplicas := 2,
    currentRevision := strBytes "rev",
    annots := [(Sts.replicasKey, strBytes "2"), (Sts.scalupKey, strBytes "true")] }

/-- C6: a descriptor (2G source) whose backup name is already taken. -/
def c6pi : Pvc.Entity :=
  { ns := strBytes "ns", sourceName := strBytes "data-web-0", labels := []
    spec := mkSpec 2 "2G", targetSize := ⟨2, strBytes "2G"⟩
    backedUp := false, restored := false }

/-- C6: the pre-existing backup volume, with a SMALLER (1G) storage
request than `c6pi.GetBackup()` would produce. -/
def c6backup : Pvc.PvcObj :=
  { name := Pvc.backupName c6pi, ns := strBytes "ns"
    labels := [(strBytes "sts-resize.vshn.net/managed", strBytes "true")]
    spec := mkSpec 1 "1G" }

/-- C6: a world holding only that diverging backup. -/
def c6w : Ctl.World := { emptyWorld with pvcs := [c6backup] }

/-- C7/C8: a 45-byte volume name (template
`data8mx1evuht6t0uzs9im0yltz9atsn1u322n6`, workload `web`, ordinal `0`)
whose CRC-64-ISO is `0x0ed149a9dfe9016d` - only 15 hex digits, so Go's
`%16x` pads it with a leading SPACE. -/
def c7str : GoStr :=
  strBytes "data8mx1evuht6t0uzs9im0yltz9atsn1u322n6-web-0"

/-- C8: a descriptor built on `c7str` with a 15-character storage-request
string (`123456789012345` bytes), so the 63-character budget forces the
CRC-64 shortening whose hash suffix is space-padded. -/
def c8entity : Pvc.Entity :=
  { ns := strBytes "ns", sourceName := c7str, labels := []
    spec := mkSpec 123456789012345 "123456789012345", targetSize := ⟨10, strBytes "10G"⟩
    backedUp := false, restored := false }

/-- C8 witness: a short-named descriptor. -/
def c8entityW : Pvc.Entity :=
  { ns := strBytes "ns", sourceName := strBytes "data-web-0", labels := []
    spec := mkSpec 1 "1G", targetSize := ⟨2, strBytes "2G"⟩
    backedUp := false, restored := false }

/-- C9: source key in namespace `ns1`. -/
def c9src : Ctl.ObjKey := { name := strBytes "data-web-0", ns := strBytes "ns1" }

/-- C9: destination key in namespace `ns2`. -/
def c9dst : Ctl.ObjKey := { name := strBytes "backup", ns := strBytes "ns2" }

/-- C9: the plain error `copyPVC` returns for a cross-namespace pair. -/
def c9err : GoError := .plain (strBytes "unable to copy across namespaces")

/-- C10 witness: a workload with a nil `Spec.Replicas` pointer, no
`scalup` annotation and no `replicas` annotation. -/
def c10sts : Sts.StsObj :=
  { specReplicas := none, statusReplicas := 0,
    currentRevision := [], annots := [] }

/-! ### Helper lemmas -/

theorem find?_append_of_none {α : Type} (p : α → Bool) (l1 l2 : List α)
    (h : l1.find? p = none) : (l1 ++ l2).find? p = l2.find? p := by
  induction l1 with
  | nil => rfl
  | cons a t ih =>
    by_cases hp : p a
    · rw [List.find?_cons_of_pos _ hp] at h; exact absurd h (by simp)
    · rw [List.find?_cons_of_neg _ hp] at h
      rw [List.cons_append, List.find?_cons_of_neg _ hp]
      exact ih h

theorem find?_filter_not {α : Type} (p : α → Bool) (l : List α) :
    (l.filter (fun x => !(p x))).find? p = none := by
  induction l with
  | nil => rfl
  | cons a t ih =>
    by_cases h : p a
    · simp [List.filter, h, ih]
    · simp [List.filter, h, List.find?, ih]

theorem find?_filter_of_imp {α : Type} (p q : α → Bool) (l : List α)
    (h : ∀ x, p x = true → q x = true) :
    (l.filter q).find? p = l.find? p := by
  induction l with
  | nil => rfl
  | cons a t ih =>
    by_cases hq : q a = true
    · rw [List.filter_cons_of_pos hq]
      by_cases hp : p a
      · rw [List.find?_cons_of_pos _ hp, List.find?_cons_of_pos _ hp]
      · rw [List.find?_cons_of_neg _ hp, List.find?_cons_of_neg _ hp]
        exact ih
    · have hp : ¬ p a = true := fun hpa => hq (h a hpa)
      rw [List.filter_cons_of_neg hq, List.find?_cons_of_neg _ hp]
      exact ih

namespace Sts

theorem annotLookup_set_self (a : List (GoStr × GoStr)) (k v : GoStr) :
    annotLookup (annotSet a k v) k = v := by
  simp [annotLookup, annotSet, List.find?]

theorem annotLookup_set_other (a : List (GoStr × GoStr)) (k v k1 : GoStr)
    (h : k1 ≠ k) : annotLookup (annotSet a k v) k1 = annotLookup a k1 := by
  unfold annotSet annotLookup
  rw [List.find?_cons_of_neg _ (by simp [Ne.symm h])]
  rw [find?_filter_of_imp _ _ _ ?_]
  intro x hx
  have hx1 : x.1 = k1 := by simpa using hx
  simp [bne, hx1, h]

theorem annotLookup_del_self (a : List (GoStr × GoStr)) (k : GoStr) :
    annotLookup (annotDel a k) k = [] := by
  unfold annotDel annotLookup
  have h := find?_filter_not (fun x : GoStr × GoStr => x.1 == k) a
  simp only [bne]
  rw [h]
  rfl

theorem annotLookup_del_other (a : List (GoStr × GoStr)) (k k1 : GoStr)
    (h : k1 ≠ k) : annotLookup (annotDel a k) k1 = annotLookup a k1 := by
  unfold annotDel annotLookup
  rw [find?_filter_of_imp _ _ _ ?_]
  intro x hx
  have hx1 : x.1 = k1 := by simpa using hx
  simp [bne, hx1, h]

theorem isScaledDown_iff (s : StsObj) :
    isScaledDown s = true ↔
      (s.specReplicas = some 0 ∧ s.statusReplicas = 0 ∧ s.currentRevision ≠ []) := by
  simp only [isScaledDown, Bool.and_eq_true, beq_iff_eq, bne_iff_ne]
  tauto

theorem isScalingUp_iff (s : StsObj) :
    isScalingUp s = true ↔ annotLookup s.annots scalupKey = strBytes "true" := by
  simp [isScalingUp]

theorem isScaledUp_iff (s : StsObj) (n : Int) :
    isScaledUp s n = true ↔
      (s.specReplicas = some n ∧ s.statusReplicas = n ∧ s.currentRevision ≠ []) := by
  simp only [isScaledUp, Bool.and_eq_true, beq_iff_eq, bne_iff_ne]
  tauto

end Sts

/-! ### Claim C10 -/

/-- C10: a StatefulSet with a nil `spec.replicas` pointer, `scalup` not
`"true"` and an empty `replicas` annotation drives `PrepareScaleDown`
into the nil-pointer dereference inside `saveOriginalReplicaCount`
(modelled as `none` = panic); absence of panic requires `spec.replicas ≠
nil`. -/
theorem c10_scaleDown_nil_panics (s : Sts.StsObj)
    (h1 : s.specReplicas = none)
    (h2 : Sts.annotLookup s.annots Sts.scalupKey ≠ strBytes "true")
    (h3 : Sts.annotLookup s.annots Sts.replicasKey = []) :
    Sts.prepareScaleDown s = none := by
  have hd : Sts.isScaledDown s = false := by
    simp [Sts.isScaledDown, h1]
  have hu : Sts.isScalingUp s = false := by
    simp [Sts.isScalingUp, h2]
  simp [Sts.prepareScaleDown, hd, hu, Sts.saveOriginalReplicaCount, h3, h1]

/-- C10 witness: the hypotheses hold of `c10sts` and the call panics. -/
theorem c10_scaleDown_nil_panics_witness :
    (c10sts.specReplicas = none ∧
     Sts.annotLookup c10sts.annots Sts.scalupKey ≠ strBytes "true" ∧
     Sts.annotLookup c10sts.annots Sts.replicasKey = []) ∧
    Sts.prepareScaleDown c10sts = none :=
  ⟨⟨rfl, by decide, rfl⟩, c10_scaleDown_nil_panics c10sts rfl (by decide) rfl⟩

/-! ### Claim C9 -/

/-- C9 counterexample: on a cross-namespace pair `copyPVC` fails with the
PLAIN `errors.New` error - `isCritical` does not recognise it as a
`CriticalError` - refuting "fails with a Critical error"; no job is
created. -/
theorem c9_counterexample :
    (Ctl.copyPVC [] [] c9src c9dst emptyWorld).2.2 = some c9err ∧
    isCritical c9err = none ∧
    (Ctl.copyPVC [] [] c9src c9dst emptyWorld).1.jobs = [] :=
  ⟨rfl, rfl, rfl⟩

/-- C9 (amended): for src and dst in different namespaces, `copyPVC`
fails with the plain (non-Critical) error
`"unable to copy across namespaces"` and creates no copy job. -/
theorem c9_cross_namespace (role image : GoStr) (src dst : Ctl.ObjKey)
    (w : Ctl.World) (h : src.ns ≠ dst.ns) :
    Ctl.copyPVC role image src dst w =
      ({ w with copyCalls := w.copyCalls ++ [(src, dst)] }, false,
        some (.plain (strBytes "unable to copy across namespaces"))) ∧
    isCritical (.plain (strBytes "unable to copy across namespaces")) = none := by
  refine ⟨?_, rfl⟩
  simp [Ctl.copyPVC, h]

/-- C9 witness. -/
theorem c9_cross_namespace_witness :
    c9src.ns ≠ c9dst.ns ∧
    Ctl.copyPVC [] [] c9src c9dst emptyWorld =
      ({ emptyWorld with copyCalls := [(c9src, c9dst)] }, false,
        some (.plain (strBytes "unable to copy across namespaces"))) :=
  ⟨by decide, (c9_cross_namespace [] [] c9src c9dst emptyWorld (by decide)).1⟩

/-! ### Claim C5 -/

/-- C5 counterexample: with `replicas = "NaN"` the parse fails, but the
returned error is a plain `fmt.Errorf` wrap whose chain contains no
`CriticalError` - refuting "fails with a Critical error". -/
theorem c5_counterexample :
    Sts.prepareScaleUp c5sts = .error c5err ∧ isCritical c5err = none :=
  ⟨rfl, rfl⟩

/-- C5 (amended): `PrepareScaleUp` parses the `replicas` annotation into N
(via `Atoi` and the `int32` conversion) and fails with a PLAIN
(non-Critical) error when it is unparseable; when desired = N,
observed = N and the observed-generation marker is non-empty it removes
both the `replicas` and `scalup` annotations and returns true; otherwise
it sets `scalup` to `"true"`, sets desired replicas to N, and returns
false. -/
theorem c5_scaleUp_characterisation (s : Sts.StsObj) :
    (Sts.getOriginalReplicaCount s = none →
      Sts.prepareScaleUp s = .error c5err ∧ isCritical c5err = none) ∧
    (∀ n, Sts.getOriginalReplicaCount s = some n →
      ((s.specReplicas = some n ∧ s.statusReplicas = n ∧ s.currentRevision ≠ []) →
        ∃ s1, Sts.prepareScaleUp s = .ok (s1, true) ∧
          Sts.annotLookup s1.annots Sts.replicasKey = [] ∧
          Sts.annotLookup s1.annots Sts.scalupKey = [] ∧
          (∀ k, k ≠ Sts.replicasKey → k ≠ Sts.scalupKey →
            Sts.annotLookup s1.annots k = Sts.annotLookup s.annots k) ∧
          s1.specReplicas = s.specReplicas ∧
          s1.statusReplicas = s.statusReplicas ∧
          s1.currentRevision = s.currentRevision) ∧
      (¬(s.specReplicas = some n ∧ s.statusReplicas = n ∧ s.currentRevision ≠ []) →
        ∃ s1, Sts.prepareScaleUp s = .ok (s1, false) ∧
          s1.specReplicas = some n ∧
          Sts.annotLookup s1.annots Sts.scalupKey = strBytes "true" ∧
          (∀ k, k ≠ Sts.scalupKey →
            Sts.annotLookup s1.annots k = Sts.annotLookup s.annots k) ∧
          s1.statusReplicas = s.statusReplicas ∧
          s1.currentRevision = s.currentRevision)) := by
  constructor
  · intro h
    constructor
    · simp [Sts.prepareScaleUp, h, c5err]
    · rfl
  · intro n hn
    constructor
    · intro hup
      have hs : Sts.isScaledUp s n = true := (Sts.isScaledUp_iff s n).mpr hup
      refine ⟨⟨s.specReplicas, s.statusReplicas, s.currentRevision,
        Sts.annotDel (Sts.annotDel s.annots Sts.scalupKey) Sts.replicasKey⟩,
        ?_, ?_, ?_, ?_, rfl, rfl, rfl⟩
      · simp [Sts.prepareScaleUp, hn, hs]
      · exact Sts.annotLookup_del_self _ _
      · exact (Sts.annotLookup_del_other _ _ _ (by decide)).trans
          (Sts.annotLookup_del_self _ _)
      · intro k hk1 hk2
        exact (Sts.annotLookup_del_other _ _ _ hk1).trans
          (Sts.annotLookup_del_other _ _ _ hk2)
    · intro hup
      have hs : Sts.isScaledUp s n = false := by
        cases hb : Sts.isScaledUp s n
        · rfl
        · exact absurd ((Sts.isScaledUp_iff s n).mp hb) hup
      refine ⟨⟨some n, s.statusReplicas, s.currentRevision,
        Sts.annotSet s.annots Sts.scalupKey (strBytes "true")⟩,
        ?_, rfl, ?_, ?_, rfl, rfl⟩
      · simp [Sts.prepareScaleUp, hn, hs]
      · exact Sts.annotLookup_set_self _ _ _
      · intro k hk
        exact Sts.annotLookup_set_other _ _ _ _ hk

/-- C5 witness: applies the characterisation to the resumed workload
`c5stsW` (N = 2), obtaining the annotation-clearing branch. -/
theorem c5_scaleUp_witness :
    Sts.getOriginalReplicaCount c5stsW = some 2 ∧
    ∃ s1, Sts.prepareScaleUp c5stsW = .ok (s1, true) ∧
      Sts.annotLookup s1.annots Sts.replicasKey = [] ∧
      Sts.annotLookup s1.annots Sts.scalupKey = [] := by
  refine ⟨by decide, ?_⟩
  obtain ⟨s1, h1, h2, h3, -⟩ :=
    ((c5_scaleUp_characterisation c5stsW).2 2 (by decide)).1 (by decide)
  exact ⟨s1, h1, h2, h3⟩

/-! ### Claim C4 -/

/-- C4: `PrepareScaleDown` (when it does not panic - C10 covers the nil
dereference) returns true leaving the object unchanged exactly when the
workload is quiesced (desired 0, observed 0, non-empty
observed-generation marker) or `scalup = "true"`; in every other case it
stores the current desired replica count in the `replicas` annotation
only if that annotation is unset (Go map semantics: reads as `""`), sets
desired replicas to 0, and returns false. -/
theorem c4_scaleDown_characterisation (s : Sts.StsObj) (out : Sts.StsObj × Bool)
    (h : Sts.prepareScaleDown s = some out) :
    ((out.2 = true ∧ out.1 = s) ↔
      ((s.specReplicas = some 0 ∧ s.statusReplicas = 0 ∧ s.currentRevision ≠ []) ∨
        Sts.annotLookup s.annots Sts.scalupKey = strBytes "true")) ∧
    (¬((s.specReplicas = some 0 ∧ s.statusReplicas = 0 ∧ s.currentRevision ≠ []) ∨
        Sts.annotLookup s.annots Sts.scalupKey = strBytes "true") →
      out.2 = false ∧
      out.1.specReplicas = some 0 ∧
      out.1.statusReplicas = s.statusReplicas ∧
      out.1.currentRevision = s.currentRevision ∧
      (Sts.annotLookup s.annots Sts.replicasKey ≠ [] → out.1.annots = s.annots) ∧
      (Sts.annotLookup s.annots Sts.replicasKey = [] →
        ∃ r, s.specReplicas = some r ∧
          Sts.annotLookup out.1.annots Sts.replicasKey = goItoa r ∧
          (∀ k, k ≠ Sts.replicasKey →
            Sts.annotLookup out.1.annots k = Sts.annotLookup s.annots k))) := by
  by_cases hc : (s.specReplicas = some 0 ∧ s.statusReplicas = 0 ∧ s.currentRevision ≠ []) ∨
      Sts.annotLookup s.annots Sts.scalupKey = strBytes "true"
  · have hb : (Sts.isScaledDown s || Sts.isScalingUp s) = true := by
      rcases hc with hc | hc
      · simp [(Sts.isScaledDown_iff s).mpr hc]
      · simp [(Sts.isScalingUp_iff s).mpr hc]
    rw [Sts.prepareScaleDown, if_pos hb] at h
    cases h
    exact ⟨by simp [hc], fun hn => absurd hc hn⟩
  · have hb : (Sts.isScaledDown s || Sts.isScalingUp s) = false := by
      cases hd : Sts.isScaledDown s
      · cases hu : Sts.isScalingUp s
        · rfl
        · exact absurd (Or.inr ((Sts.isScalingUp_iff s).mp hu)) hc
      · exact absurd (Or.inl ((Sts.isScaledDown_iff s).mp hd)) hc
    rw [Sts.prepareScaleDown, if_neg (by simp [hb])] at h
    by_cases ha : Sts.annotLookup s.annots Sts.replicasKey = []
    · rw [Sts.saveOriginalReplicaCount, if_pos ha] at h
      cases hr : s.specReplicas with
      | none => rw [hr] at h; exact absurd h (by simp)
      | some r =>
        rw [hr] at h hc
        simp only [Option.some.injEq] at h
        subst h
        refine ⟨⟨fun hcon => absurd hcon.1 (by simp), fun hcon => absurd hcon hc⟩, ?_⟩
        intro hdum
        refine ⟨rfl, rfl, rfl, rfl, fun hne => absurd ha hne, fun _ => ⟨r, rfl, ?_, ?_⟩⟩
        · exact Sts.annotLookup_set_self _ _ _
        · intro k hk
          exact Sts.annotLookup_set_other _ _ _ _ hk
    · rw [Sts.saveOriginalReplicaCount, if_neg ha] at h
      simp only [Option.some.injEq] at h
      subst h
      refine ⟨⟨fun hcon => absurd hcon.1 (by simp), fun hcon => absurd hcon hc⟩, ?_⟩
      intro hdum
      exact ⟨rfl, rfl, rfl, rfl, fun _ => rfl, fun he => absurd he ha⟩

/-- C4 witness: on `c4sts` (3 replicas, nothing saved) the call stores
`"3"`, scales to 0 and returns false. -/
theorem c4_scaleDown_witness :
    Sts.prepareScaleDown c4sts = some c4out ∧ c4out.2 = false := by
  refine ⟨by decide, ?_⟩
  have h := c4_scaleDown_characterisation c4sts c4out (by decide)
  exact (h.2 (by decide)).1

/-! ### World-state helper lemmas -/

namespace Ctl

theorem ensureRbac_jobs (role ns : GoStr) (w : World) :
    (ensureRbac role ns w).1.jobs = w.jobs := by
  unfold ensureRbac getOrCreateSA getOrCreateRB
  dsimp only
  repeat' split
  all_goals rfl

theorem ensureRbac_pvcs (role ns : GoStr) (w : World) :
    (ensureRbac role ns w).1.pvcs = w.pvcs := by
  unfold ensureRbac getOrCreateSA getOrCreateRB
  dsimp only
  repeat' split
  all_goals rfl

theorem ensureRbac_dels (role ns : GoStr) (w : World) :
    (ensureRbac role ns w).1.dels = w.dels := by
  unfold ensureRbac getOrCreateSA getOrCreateRB
  dsimp only
  repeat' split
  all_goals rfl

theorem ensureRbac_copyCalls (role ns : GoStr) (w : World) :
    (ensureRbac role ns w).1.copyCalls = w.copyCalls := by
  unfold ensureRbac getOrCreateSA getOrCreateRB
  dsimp only
  repeat' split
  all_goals rfl

theorem cleanupRbac_jobs (role ns : GoStr) (w : World) :
    (cleanupRbac role ns w).jobs = w.jobs := by
  unfold cleanupRbac deleteSA deleteRB
  by_cases h : role ≠ [] <;> simp [h]

theorem cleanupRbac_pvcs (role ns : GoStr) (w : World) :
    (cleanupRbac role ns w).pvcs = w.pvcs := by
  unfold cleanupRbac deleteSA deleteRB
  by_cases h : role ≠ [] <;> simp [h]

theorem cleanupRbac_copyCalls (role ns : GoStr) (w : World) :
    (cleanupRbac role ns w).copyCalls = w.copyCalls := by
  unfold cleanupRbac deleteSA deleteRB
  by_cases h : role ≠ [] <;> simp [h]

theorem cleanupRbac_dels_mono (role ns : GoStr) (w : World) (x : DelRec)
    (h : x ∈ w.dels) : x ∈ (cleanupRbac role ns w).dels := by
  unfold cleanupRbac deleteSA deleteRB
  by_cases hr : role ≠ [] <;> simp [hr, h]

theorem getOrCreateJob_found (w : World) (job j : JobObj)
    (h : findJob w job.ns job.name = some j) :
    getOrCreateJob w job = (w, j) := by
  unfold getOrCreateJob
  rw [h]

theorem getOrCreateJob_jobs_found (w : World) (job j : JobObj)
    (h : findJob w job.ns job.name = some j) :
    (getOrCreateJob w job).1 = w := by
  rw [getOrCreateJob_found w job j h]

theorem jobDoneConds_none (jname : GoStr) (conds : List JobCond)
    (h1 : hasCondTrue conds .complete = false)
    (h2 : hasCondTrue conds .failed = false) :
    jobDoneConds jname conds = (false, none) := by
  induction conds with
  | nil => rfl
  | cons c rest ih =>
    simp only [hasCondTrue, List.any_cons, Bool.or_eq_false_iff] at h1 h2
    unfold jobDoneConds
    by_cases hs : c.status = CStatus.condTrue
    · have hc : (c.condType == JCType.complete) = false := by
        rcases Bool.and_eq_false_iff.mp h1.1 with h | h
        · simp [hs] at h
        · exact h
      have hf : (c.condType == JCType.failed) = false := by
        rcases Bool.and_eq_false_iff.mp h2.1 with h | h
        · simp [hs] at h
        · exact h
      simp [hs, hc, hf]
      exact ih (by simpa [hasCondTrue] using h1.2) (by simpa [hasCondTrue] using h2.2)
    · have hs1 : (c.status != CStatus.condTrue) = true := by simp [hs]
      simp [hs1]
      exact ih (by simpa [hasCondTrue] using h1.2) (by simpa [hasCondTrue] using h2.2)

theorem jobDoneConds_complete (jname : GoStr) (conds : List JobCond)
    (hc : hasCondTrue conds .complete = true)
    (hf : hasCondTrue conds .failed = false) :
    jobDoneConds jname conds = (true, none) := by
  induction conds with
  | nil => simp [hasCondTrue] at hc
  | cons c rest ih =>
    simp only [hasCondTrue, List.any_cons, Bool.or_eq_false_iff] at hf
    unfold jobDoneConds
    by_cases hs : c.status = CStatus.condTrue
    · by_cases hcc : c.condType = JCType.complete
      · simp [hs, hcc]
      · have hcf : (c.condType == JCType.failed) = false := by
          rcases Bool.and_eq_false_iff.mp hf.1 with h | h
          · simp [hs] at h
          · exact h
        have hrest : hasCondTrue rest .complete = true := by
          simp only [hasCondTrue, List.any_cons] at hc
          rcases Bool.or_eq_true_iff.mp hc with h | h
          · exact absurd (Bool.and_eq_true_iff.mp h).2 (by simp [hcc])
          · exact h
        simp [hs, hcc, hcf]
        exact ih hrest (by simpa [hasCondTrue] using hf.2)
    · have hs1 : (c.status != CStatus.condTrue) = true := by simp [hs]
      have hrest : hasCondTrue rest .complete = true := by
        simp only [hasCondTrue, List.any_cons] at hc
        rcases Bool.or_eq_true_iff.mp hc with h | h
        · exact absurd (Bool.and_eq_true_iff.mp h).1 (by simp [hs])
        · exact h
      simp [hs1]
      exact ih hrest (by simpa [hasCondTrue] using hf.2)

theorem getOrCreateJob_pvcs (w : World) (j : JobObj) :
    (getOrCreateJob w j).1.pvcs = w.pvcs := by
  unfold getOrCreateJob; split <;> rfl

theorem getOrCreateJob_copyCalls (w : World) (j : JobObj) :
    (getOrCreateJob w j).1.copyCalls = w.copyCalls := by
  unfold getOrCreateJob; split <;> rfl

theorem deleteJob_pvcs (w : World) (ns nm : GoStr) (p : Option GoStr) :
    (deleteJob w ns nm p).pvcs = w.pvcs := rfl

theorem deleteJob_copyCalls (w : World) (ns nm : GoStr) (p : Option GoStr) :
    (deleteJob w ns nm p).copyCalls = w.copyCalls := rfl

theorem copyPVC_pvcs (role image : GoStr) (src dst : ObjKey) (w : World) :
    (copyPVC role image src dst w).1.pvcs = w.pvcs := by
  unfold copyPVC
  dsimp only
  repeat' split
  all_goals
    first
    | rfl
    | simp [cleanupRbac_pvcs, deleteJob_pvcs, getOrCreateJob_pvcs, ensureRbac_pvcs]

theorem copyPVC_copyCalls (role image : GoStr) (src dst : ObjKey) (w : World) :
    (copyPVC role image src dst w).1.copyCalls = w.copyCalls ++ [(src, dst)] := by
  unfold copyPVC
  dsimp only
  repeat' split
  all_goals
    first
    | rfl
    | simp [cleanupRbac_copyCalls, deleteJob_copyCalls, getOrCreateJob_copyCalls,
        ensureRbac_copyCalls]

theorem jobDoneConds_failed (jname : GoStr) (conds : List JobCond)
    (hc : hasCondTrue conds .complete = false)
    (hf : hasCondTrue conds .failed = true) :
    jobDoneConds jname conds =
      (true, some (.critical (.plain (strBytes "job " ++ jname ++ strBytes " failed")) [] false)) := by
  induction conds with
  | nil => simp [hasCondTrue] at hf
  | cons c rest ih =>
    simp only [hasCondTrue, List.any_cons, Bool.or_eq_false_iff] at hc
    unfold jobDoneConds
    by_cases hs : c.status = CStatus.condTrue
    · have hcc : (c.condType == JCType.complete) = false := by
        rcases Bool.and_eq_false_iff.mp hc.1 with h | h
        · simp [hs] at h
        · exact h
      by_cases hcf : c.condType = JCType.failed
      · simp [hs, hcc, hcf]
      · have hrest : hasCondTrue rest .failed = true := by
          simp only [hasCondTrue, List.any_cons] at hf
          rcases Bool.or_eq_true_iff.mp hf with h | h
          · exact absurd (Bool.and_eq_true_iff.mp h).2 (by simp [hcf])
          · exact h
        simp [hs, hcc, hcf]
        exact ih (by simpa [hasCondTrue] using hc.2) hrest
    · have hs1 : (c.status != CStatus.condTrue) = true := by simp [hs]
      have hrest : hasCondTrue rest .failed = true := by
        simp only [hasCondTrue, List.any_cons] at hf
        rcases Bool.or_eq_true_iff.mp hf with h | h
        · exact absurd (Bool.and_eq_true_iff.mp h).1 (by simp [hs])
        · exact h
      simp [hs1]
      exact ih (by simpa [hasCondTrue] using hc.2) hrest

end Ctl

/-! ### Claim C2 -/

/-- C2: for every observed copy job (one that exists under the derived
name, with Kubernetes' guarantee that `Complete` and `Failed` are not
simultaneously true), `copyPVC` maps the job's conditions to exactly one
of three outcomes: complete ⇒ the job is deleted with foreground
propagation and the call reports success (done, no error); failed ⇒ a
`CriticalError` is reported; otherwise ⇒ still running (not done, no
error). -/
theorem c2_copy_outcomes (role image : GoStr) (src dst : Ctl.ObjKey)
    (w : Ctl.World) (j : Ctl.JobObj)
    (hns : src.ns = dst.ns)
    (hj : Ctl.findJob w src.ns (Ctl.newJobName src.name dst.name) = some j)
    (hx : ¬(Ctl.hasCondTrue j.conds .complete = true ∧
        Ctl.hasCondTrue j.conds .failed = true)) :
    (Ctl.hasCondTrue j.conds .complete = true →
      (Ctl.copyPVC role image src dst w).2.1 = true ∧
      (Ctl.copyPVC role image src dst w).2.2 = none ∧
      (⟨.jobKind, j.ns, j.name, some (strBytes "Foreground")⟩ : Ctl.DelRec) ∈
        (Ctl.copyPVC role image src dst w).1.dels ∧
      Ctl.findJob (Ctl.copyPVC role image src dst w).1 j.ns j.name = none) ∧
    (Ctl.hasCondTrue j.conds .failed = true →
      (Ctl.copyPVC role image src dst w).2.1 = true ∧
      (Ctl.copyPVC role image src dst w).2.2 =
        some (.critical (.plain (strBytes "job " ++ j.name ++ strBytes " failed")) [] false) ∧
      isCritical
        (.critical (.plain (strBytes "job " ++ j.name ++ strBytes " failed")) [] false) ≠ none) ∧
    (Ctl.hasCondTrue j.conds .complete = false →
     Ctl.hasCondTrue j.conds .failed = false →
      (Ctl.copyPVC role image src dst w).2.1 = false ∧
      (Ctl.copyPVC role image src dst w).2.2 = none) := by
  have hcc : ¬ (src.ns ≠ dst.ns) := by simp [hns]
  set w0 : Ctl.World := { w with copyCalls := w.copyCalls ++ [(src, dst)] } with hw0
  have hj0 : Ctl.findJob w0 src.ns (Ctl.newJobName src.name dst.name) = some j := hj
  have hj1 : Ctl.findJob (Ctl.ensureRbac role src.ns w0).1 src.ns
      (Ctl.newJobName src.name dst.name) = some j := by
    unfold Ctl.findJob
    rw [Ctl.ensureRbac_jobs]
    exact hj0
  have hget : Ctl.getOrCreateJob (Ctl.ensureRbac role src.ns w0).1
      (Ctl.newJob src.ns image (Ctl.ensureRbac role src.ns w0).2 src.name dst.name) =
      ((Ctl.ensureRbac role src.ns w0).1, j) :=
    Ctl.getOrCreateJob_found _ _ _ hj1
  refine ⟨?_, ?_, ?_⟩
  · intro hcomp
    have hfail : Ctl.hasCondTrue j.conds .failed = false := by
      cases hb : Ctl.hasCondTrue j.conds .failed
      · rfl
      · exact absurd ⟨hcomp, hb⟩ hx
    have hde : Ctl.isJobDone j = (true, none) :=
      Ctl.jobDoneConds_complete _ _ hcomp hfail
    have hrun : Ctl.copyPVC role image src dst w =
        (Ctl.cleanupRbac role src.ns
          (Ctl.deleteJob (Ctl.ensureRbac role src.ns w0).1 j.ns j.name
            (some (strBytes "Foreground"))), true, none) := by
      unfold Ctl.copyPVC
      dsimp only
      rw [if_neg hcc, ← hw0, hget, hde]
      simp
    rw [hrun]
    refine ⟨rfl, rfl, ?_, ?_⟩
    · apply Ctl.cleanupRbac_dels_mono
      simp [Ctl.deleteJob]
    · unfold Ctl.findJob
      rw [Ctl.cleanupRbac_jobs]
      exact find?_filter_not _ _
  · intro hfail
    have hcomp : Ctl.hasCondTrue j.conds .complete = false := by
      cases hb : Ctl.hasCondTrue j.conds .complete
      · rfl
      · exact absurd ⟨hb, hfail⟩ hx
    have hde : Ctl.isJobDone j =
        (true, some (.critical (.plain (strBytes "job " ++ j.name ++ strBytes " failed")) [] false)) :=
      Ctl.jobDoneConds_failed _ _ hcomp hfail
    have hrun : Ctl.copyPVC role image src dst w =
        ((Ctl.ensureRbac role src.ns w0).1, true,
          some (.critical (.plain (strBytes "job " ++ j.name ++ strBytes " failed")) [] false)) := by
      unfold Ctl.copyPVC
      dsimp only
      rw [if_neg hcc, ← hw0, hget, hde]
      simp
    rw [hrun]
    exact ⟨rfl, rfl, by simp [isCritical]⟩
  · intro hcomp hfail
    have hde : Ctl.isJobDone j = (false, none) :=
      Ctl.jobDoneConds_none _ _ hcomp hfail
    have hrun : Ctl.copyPVC role image src dst w =
        ((Ctl.ensureRbac role src.ns w0).1, false, none) := by
      unfold Ctl.copyPVC
      dsimp only
      rw [if_neg hcc, ← hw0, hget, hde]
      simp
    rw [hrun]
    exact ⟨rfl, rfl⟩

/-- C2 witness: a completed job for (`src-pvc`, `dst-pvc`) is deleted with
foreground propagation and the call reports success. -/
theorem c2_copy_outcomes_witness :
    c2src.ns = c2dst.ns ∧
    Ctl.findJob c2w c2src.ns (Ctl.newJobName c2src.name c2dst.name) = some c2job ∧
    (Ctl.copyPVC [] [] c2src c2dst c2w).2.1 = true ∧
    (Ctl.copyPVC [] [] c2src c2dst c2w).2.2 = none ∧
    (⟨.jobKind, c2job.ns, c2job.name, some (strBytes "Foreground")⟩ : Ctl.DelRec) ∈
      (Ctl.copyPVC [] [] c2src c2dst c2w).1.dels := by
  have h := (c2_copy_outcomes [] [] c2src c2dst c2w c2job rfl (by rfl)
    (by decide)).1 (by decide)
  exact ⟨rfl, by rfl, h.1, h.2.1, h.2.2.1⟩

/-! ### Claim C3 -/

/-- C3 counterexample: with the original volume ABSENT, `restorePVC`
creates it and immediately proceeds to the copy in the SAME reconcile -
a sync job exists in the resulting world - refuting "the copy is only
invoked on a subsequent reconcile" and "only when the original is present
and at least targetSize does the step proceed to invoke the copy".  (The
step does report not-done, but only because the fresh job is running.) -/
theorem c3_counterexample :
    Ctl.findPvc emptyWorld c3pi.ns c3pi.sourceName = none ∧
    (Ctl.restorePVC [] [] c3pi emptyWorld).1.jobs.length = 1 ∧
    (Ctl.restorePVC [] [] c3pi emptyWorld).1.copyCalls ≠ [] ∧
    (Ctl.restorePVC [] [] c3pi emptyWorld).2.2.1 = false :=
  ⟨rfl, rfl, by decide, rfl⟩

/-- C3 (amended): in the Restore step with `restored = false`: if the
original volume is absent, the step creates it from `GetResizedSource()`
and IMMEDIATELY invokes the copy in the same reconcile; if the original
is present with storage strictly below the target size, the step deletes
it and returns "not done yet" without invoking the copy; if it is present
and at least the target size, the step proceeds to invoke the copy. -/
theorem c3_restore_characterisation (role image : GoStr) (pi : Pvc.Info)
    (w : Ctl.World) (h : pi.restored = false) :
    (Ctl.findPvc w pi.ns pi.sourceName = none →
      Ctl.findPvc (Ctl.restorePVC role image pi w).1 pi.ns pi.sourceName =
          some (Pvc.getResizedSourceInfo pi) ∧
      (Ctl.restorePVC role image pi w).1.copyCalls =
        w.copyCalls ++ [({ name := Pvc.backupNameInfo pi, ns := pi.ns },
          { name := pi.sourceName, ns := pi.ns })]) ∧
    (∀ found, Ctl.findPvc w pi.ns pi.sourceName = some found →
      found.spec.reqStorage.val < pi.targetSize.val →
      Ctl.restorePVC role image pi w =
        (Ctl.deletePvc w found.ns found.name, pi, false, none)) ∧
    (∀ found, Ctl.findPvc w pi.ns pi.sourceName = some found →
      ¬ found.spec.reqStorage.val < pi.targetSize.val →
      (Ctl.restorePVC role image pi w).1.copyCalls =
        w.copyCalls ++ [({ name := Pvc.backupNameInfo pi, ns := pi.ns },
          { name := pi.sourceName, ns := pi.ns })]) := by
  have hsrc_ns : (Pvc.getResizedSourceInfo pi).ns = pi.ns := rfl
  have hsrc_nm : (Pvc.getResizedSourceInfo pi).name = pi.sourceName := rfl
  refine ⟨?_, ?_, ?_⟩
  · intro habs
    have hrs : Ctl.resizeSource pi w =
        (Ctl.createPvc w (Pvc.getResizedSourceInfo pi), true, none) := by
      unfold Ctl.resizeSource
      dsimp only
      rw [hsrc_ns, hsrc_nm, habs]
    have hrun : (Ctl.restorePVC role image pi w).1 =
        (Ctl.copyPVC role image
          { name := Pvc.backupNameInfo pi, ns := pi.ns }
          { name := pi.sourceName, ns := pi.ns }
          (Ctl.createPvc w (Pvc.getResizedSourceInfo pi))).1 := by
      unfold Ctl.restorePVC
      rw [h]
      dsimp only
      rw [hrs]
      dsimp only
      repeat' split
      all_goals first | rfl | simp_all
    rw [hrun]
    constructor
    · unfold Ctl.findPvc
      rw [Ctl.copyPVC_pvcs]
      show (w.pvcs ++ [Pvc.getResizedSourceInfo pi]).find? _ = _
      rw [find?_append_of_none _ _ _ habs]
      simp [List.find?, Pvc.getResizedSourceInfo]
    · rw [Ctl.copyPVC_copyCalls]
      rfl
  · intro found hfound hsmall
    have hrs : Ctl.resizeSource pi w =
        (Ctl.deletePvc w found.ns found.name, false, none) := by
      unfold Ctl.resizeSource
      dsimp only
      rw [hsrc_ns, hsrc_nm, hfound]
      dsimp only
      rw [if_pos hsmall]
    unfold Ctl.restorePVC
    rw [h]
    dsimp only
    rw [hrs]
    simp
  · intro found hfound hbig
    have hrs : Ctl.resizeSource pi w = (w, true, none) := by
      unfold Ctl.resizeSource
      dsimp only
      rw [hsrc_ns, hsrc_nm, hfound]
      dsimp only
      rw [if_neg hbig]
    have hrun : (Ctl.restorePVC role image pi w).1 =
        (Ctl.copyPVC role image
          { name := Pvc.backupNameInfo pi, ns := pi.ns }
          { name := pi.sourceName, ns := pi.ns } w).1 := by
      unfold Ctl.restorePVC
      rw [h]
      dsimp only
      rw [hrs]
      dsimp only
      repeat' split
      all_goals first | rfl | simp_all
    rw [hrun, Ctl.copyPVC_copyCalls]

/-- C3 witness: applies the characterisation to `c3pi` on the empty
cluster (original absent). -/
theorem c3_restore_witness :
    c3pi.restored = false ∧
    Ctl.findPvc emptyWorld c3pi.ns c3pi.sourceName = none ∧
    Ctl.findPvc (Ctl.restorePVC [] [] c3pi emptyWorld).1 c3pi.ns c3pi.sourceName =
      some (Pvc.getResizedSourceInfo c3pi) ∧
    (Ctl.restorePVC [] [] c3pi emptyWorld).1.copyCalls =
      [({ name := Pvc.backupNameInfo c3pi, ns := c3pi.ns },
        { name := c3pi.sourceName, ns := c3pi.ns })] := by
  have h := (c3_restore_characterisation [] [] c3pi emptyWorld rfl).1 rfl
  exact ⟨rfl, rfl, h.1, h.2⟩

/-! ### Claim C6 -/

/-- C6: evaluation at the failing input.  The backup named
`c6pi.BackupName()` exists with a SMALLER storage request than
`GetBackup()` would produce: `createBackupIfNotExists` does report the
divergence (a plain error, not an Abort), but `backupPVC` discards it -
the step returns (not done, NO error) and has created the copy job, so
the claimed Abort failure never happens. -/
theorem c6_code_bug_eval :
    (Ctl.createBackupIfNotExists c6pi c6w).2 =
      some (.plain (strBytes "exiting backup does not match requirements")) ∧
    (Ctl.backupPVC [] [] c6pi c6w).2.2.2 = none ∧
    (Ctl.backupPVC [] [] c6pi c6w).2.2.1 = false ∧
    (Ctl.backupPVC [] [] c6pi c6w).1.jobs.length = 1 :=
  ⟨rfl, rfl, rfl, rfl⟩

/-! ### Claim C1 -/

namespace Ctl

theorem findTooSmallTpl_some (p : Pvc.PvcObj) (sn : GoStr) (l : List VolTpl)
    (tpl : VolTpl) (h : findTooSmallTpl p sn l = some tpl) :
    tpl ∈ l ∧ isPVCTooSmall p tpl sn = true := by
  induction l with
  | nil => simp [findTooSmallTpl] at h
  | cons t rest ih =>
    unfold findTooSmallTpl at h
    by_cases ht : isPVCTooSmall p t sn = true
    · rw [if_pos ht] at h
      cases h
      exact ⟨List.mem_cons_self _ _, ht⟩
    · rw [if_neg ht] at h
      obtain ⟨h1, h2⟩ := ih h
      exact ⟨List.mem_cons_of_mem _ h1, h2⟩

theorem findTooSmallTpl_none (p : Pvc.PvcObj) (sn : GoStr) (l : List VolTpl)
    (h : findTooSmallTpl p sn l = none) :
    ∀ tpl ∈ l, isPVCTooSmall p tpl sn = false := by
  induction l with
  | nil => intro tpl htpl; simp at htpl
  | cons t rest ih =>
    unfold findTooSmallTpl at h
    by_cases ht : isPVCTooSmall p t sn = true
    · rw [if_pos ht] at h; exact absurd h (by simp)
    · rw [if_neg ht] at h
      intro tpl htpl
      rcases List.mem_cons.mp htpl with rfl | hm
      · exact Bool.of_not_eq_true ht
      · exact ih h tpl hm

theorem mem_filterResizable (sts : StsShape) (pvcs : List Pvc.PvcObj)
    (e : Pvc.Entity) :
    e ∈ filterResizablePVCs sts pvcs ↔
      ∃ q ∈ pvcs, q.ns = sts.ns ∧
        ∃ tpl, findTooSmallTpl q sts.name sts.tpls = some tpl ∧
          e = Pvc.newEntity q.name q.ns q.labels q.spec tpl.reqStorage := by
  induction pvcs with
  | nil => simp [filterResizablePVCs]
  | cons p rest ih =>
    unfold filterResizablePVCs
    by_cases hns : p.ns ≠ sts.ns
    · rw [if_pos hns, ih]
      constructor
      · rintro ⟨q, hq, hrest⟩
        exact ⟨q, List.mem_cons_of_mem _ hq, hrest⟩
      · rintro ⟨q, hq, hqns, hrest⟩
        rcases List.mem_cons.mp hq with rfl | hm
        · exact absurd hqns hns
        · exact ⟨q, hm, hqns, hrest⟩
    · push_neg at hns
      rw [if_neg (by simp [hns])]
      cases hf : findTooSmallTpl p sts.name sts.tpls with
      | some tpl =>
        simp only [List.mem_cons]
        constructor
        · rintro (rfl | hm)
          · exact ⟨p, Or.inl rfl, hns, tpl, hf, rfl⟩
          · obtain ⟨q, hq, hrest⟩ := ih.mp hm
            exact ⟨q, Or.inr hq, hrest⟩
        · rintro ⟨q, hq, hqns, tpl1, hf1, he⟩
          rcases hq with rfl | hm
          · rw [hf] at hf1
            cases hf1
            exact Or.inl he
          · exact Or.inr (ih.mpr ⟨q, hm, hqns, tpl1, hf1, he⟩)
      | none =>
        rw [ih]
        constructor
        · rintro ⟨q, hq, hrest⟩
          exact ⟨q, List.mem_cons_of_mem _ hq, hrest⟩
        · rintro ⟨q, hq, hqns, tpl1, hf1, he⟩
          rcases List.mem_cons.mp hq with rfl | hm
          · rw [hf] at hf1; exact absurd hf1 (by simp)
          · exact ⟨q, hm, hqns, tpl1, hf1, he⟩

end Ctl

/-- C1 counterexample: the volume `data-test--1` (trailing component the
NEGATIVE integer `-1`) is NOT pending under the claim's reading
(`specPendingB` is false), yet `filterResizablePVCs` accepts it -
`strconv.Atoi` also parses signed integers. -/
theorem c1_counterexample :
    specPendingB c1sts c1pvc = false ∧
    (Ctl.filterResizablePVCs c1sts [c1pvc]).length = 1 :=
  ⟨rfl, rfl⟩

/-- C1 (amended): a candidate volume contributes to the pending list
exactly when it is in the StatefulSet's namespace and some template
accepts it under `isPVCTooSmall` - the prefix-and-trim name match whose
trailing component may be ANY `strconv.Atoi`-parsable (possibly signed)
integer - with storage strictly below that template's request.
A volume whose storage equals a template's request is never accepted by
that template (strict `<`), and every volume of the spec's exact form
`<template>-<workload>-<non-negative ordinal>` (with smaller storage) is
accepted. -/
theorem c1_filter_characterisation (sts : Ctl.StsShape) (pvcs : List Pvc.PvcObj)
    (p : Pvc.PvcObj) (hp : p ∈ pvcs) :
    ((∃ tgt, Pvc.newEntity p.name p.ns p.labels p.spec tgt ∈
        Ctl.filterResizablePVCs sts pvcs) ↔
      (p.ns = sts.ns ∧ ∃ tpl ∈ sts.tpls, Ctl.isPVCTooSmall p tpl sts.name = true)) ∧
    (∀ tpl, p.spec.reqStorage.val = tpl.reqStorage.val →
      Ctl.isPVCTooSmall p tpl sts.name = false) ∧
    (specPendingB sts p = true →
      p.ns = sts.ns ∧ ∃ tpl ∈ sts.tpls, Ctl.isPVCTooSmall p tpl sts.name = true) := by
  refine ⟨⟨?_, ?_⟩, ?_, ?_⟩
  · rintro ⟨tgt, hmem⟩
    obtain ⟨q, hq, hqns, tpl, hf, he⟩ := (Ctl.mem_filterResizable sts pvcs _).mp hmem
    have hfields : p.name = q.name ∧ p.ns = q.ns ∧ p.labels = q.labels ∧
        p.spec = q.spec := by
      simp only [Pvc.newEntity, Pvc.Entity.mk.injEq] at he
      exact ⟨he.2.1, he.1, he.2.2.1, he.2.2.2.1⟩
    have hqp : q = p := by
      cases q; cases p
      simp_all
    subst hqp
    obtain ⟨htpl, hsmall⟩ := Ctl.findTooSmallTpl_some _ _ _ _ hf
    exact ⟨hqns, tpl, htpl, hsmall⟩
  · rintro ⟨hns, tpl, htpl, hsmall⟩
    cases hf : Ctl.findTooSmallTpl p sts.name sts.tpls with
    | none => exact absurd (Ctl.findTooSmallTpl_none _ _ _ hf tpl htpl) (by simp [hsmall])
    | some tpl0 =>
      exact ⟨tpl0.reqStorage,
        (Ctl.mem_filterResizable sts pvcs _).mpr ⟨p, hp, hns, tpl0, hf, rfl⟩⟩
  · intro tpl heq
    unfold Ctl.isPVCTooSmall Ctl.isGreaterStorageRequest
    repeat' split
    all_goals simp [heq]
  · intro hspec
    simp only [specPendingB, Bool.and_eq_true, beq_iff_eq, List.any_eq_true] at hspec
    obtain ⟨hns, tpl, htpl, hformB, hgreater⟩ := hspec
    have hsplit := hformB
    unfold specNameFormB at hsplit
    obtain ⟨hpre, hdigits⟩ := Bool.and_eq_true_iff.mp hsplit
    refine ⟨hns, tpl, htpl, ?_⟩
    obtain ⟨rest, hrest⟩ :=
      (List.isPrefixOf_iff_prefix.mp hpre : _ <+: p.name)
    have hname : p.name = (tpl.name ++ [45]) ++ ((sts.name ++ [45]) ++ rest) := by
      rw [← hrest]; simp [List.append_assoc]
    have hlen : (tpl.name ++ [45] ++ sts.name ++ [45]).length =
        tpl.name.length + 1 + sts.name.length + 1 := by
      simp only [List.length_append, List.length_cons, List.length_nil]
    have hdrop : p.name.drop (tpl.name.length + 1 + sts.name.length + 1) = rest := by
      rw [← hrest, ← hlen, List.drop_left]
    rw [hdrop] at hdigits
    have hatoi : (goAtoi rest).isNone = false := by
      cases ha : goAtoi rest with
      | none => rw [ha] at hdigits; simp at hdigits
      | some v => simp
    have h1 : hasPre tpl.name p.name = true := by
      unfold hasPre
      rw [List.isPrefixOf_iff_prefix, hname, List.append_assoc]
      exact List.prefix_append _ _
    have h2 : trimPre (tpl.name ++ [45]) p.name = (sts.name ++ [45]) ++ rest := by
      unfold trimPre
      rw [if_pos (by rw [List.isPrefixOf_iff_prefix, hname]; exact List.prefix_append _ _)]
      rw [hname, List.drop_left]
    have h3 : hasPre sts.name ((sts.name ++ [45]) ++ rest) = true := by
      unfold hasPre
      rw [List.isPrefixOf_iff_prefix, List.append_assoc]
      exact List.prefix_append _ _
    have h4 : trimPre (sts.name ++ [45]) ((sts.name ++ [45]) ++ rest) = rest := by
      unfold trimPre
      rw [if_pos (by rw [List.isPrefixOf_iff_prefix]; exact List.prefix_append _ _)]
      rw [List.drop_left]
    simp only [Ctl.isPVCTooSmall, h1, h2, hatoi, hgreater, Bool.not_true,
      Bool.false_eq_true, if_false]
    have hnf : sts.name ++ 45 :: rest = (sts.name ++ [45]) ++ rest := by simp
    simp only [hnf] at h3 h4 ⊢
    rw [h3]
    simp only [Bool.not_true, Bool.false_eq_true, if_false]
    rw [h4, hatoi]
    simp [hgreater]

/-- C1 witness: on the filtering test fixture (`data-test-0`, 1G, template
10G) the characterisation yields membership of the pending list. -/
theorem c1_filter_witness :
    c1pvcW ∈ [c1pvcW] ∧
    (∃ tgt, Pvc.newEntity c1pvcW.name c1pvcW.ns c1pvcW.labels c1pvcW.spec tgt ∈
      Ctl.filterResizablePVCs c1sts [c1pvcW]) := by
  have h := (c1_filter_characterisation c1sts [c1pvcW] c1pvcW (by simp)).1
  exact ⟨by simp, h.mpr ⟨rfl, ⟨c1sts.tpls.head (by simp [c1sts]), by simp [c1sts], by decide⟩⟩⟩

/-! ### Hex and CRC lemmas for claims C7 and C8 -/

theorem head?_map_eq {α β : Type} (f : α → β) (l : List α) :
    (l.map f).head? = l.head?.map f := List.head?_map f l

theorem getLast?_map_eq {α β : Type} (f : α → β) (l : List α) :
    (l.map f).getLast? = l.getLast?.map f := by
  induction l using List.reverseRecOn with
  | nil => rfl
  | append_singleton t a ih => simp [List.getLast?_concat, List.map_append]

theorem head?_take_pos {α : Type} (s : List α) (k : Nat) (hk : 0 < k) :
    (s.take k).head? = s.head? := by
  cases s with
  | nil => simp
  | cons a t =>
    cases k with
    | zero => omega
    | succ m => rfl

namespace Naming

theorem hexDigitChar_isHex (d : Nat) (h : d < 16) :
    isLowerHexB (hexDigitChar d) = true := by
  unfold hexDigitChar isLowerHexB
  split <;> simp <;> omega

theorem natToHexAux_ne_nil (fuel : Nat) :
    ∀ n, n < fuel → natToHexAux fuel n ≠ [] := by
  induction fuel with
  | zero => intro n h; omega
  | succ f ih =>
    intro n h
    unfold natToHexAux
    by_cases h16 : n < 16
    · simp [h16]
    · simp [h16]

theorem natToHexAux_chars (fuel : Nat) :
    ∀ n, n < fuel → ∀ c ∈ natToHexAux fuel n, isLowerHexB c = true := by
  induction fuel with
  | zero => intro n h; omega
  | succ f ih =>
    intro n h c hc
    unfold natToHexAux at hc
    by_cases h16 : n < 16
    · rw [if_pos h16] at hc
      rcases List.mem_singleton.mp hc with rfl
      exact hexDigitChar_isHex n h16
    · rw [if_neg h16] at hc
      rcases List.mem_append.mp hc with hm | hm
      · have hdiv : n / 16 < f := by
          have := Nat.div_lt_self (by omega : 0 < n) (by omega : 1 < 16)
          omega
        exact ih (n / 16) hdiv c hm
      · rcases List.mem_singleton.mp hm with rfl
        exact hexDigitChar_isHex _ (Nat.mod_lt n (by omega))

theorem natToHexAux_len_le (fuel : Nat) :
    ∀ n k, n < fuel → n < 16 ^ k → 1 ≤ k → (natToHexAux fuel n).length ≤ k := by
  induction fuel with
  | zero => intro n k h; omega
  | succ f ih =>
    intro n k h hk h1
    unfold natToHexAux
    by_cases h16 : n < 16
    · simp [h16]; omega
    · rw [if_neg h16]
      obtain ⟨k1, rfl⟩ : ∃ k1, k = k1 + 1 := ⟨k - 1, by omega⟩
      have hk2 : 1 ≤ k1 := by
        by_contra hcon
        have : k1 = 0 := by omega
        subst this
        simp [pow_succ, pow_zero] at hk
        omega
      have hdiv : n / 16 < f := by
        have := Nat.div_lt_self (by omega : 0 < n) (by omega : 1 < 16)
        omega
      have hdivk : n / 16 < 16 ^ k1 := by
        rw [Nat.div_lt_iff_lt_mul (by omega : 0 < 16)]
        calc n < 16 ^ (k1 + 1) := hk
        _ = 16 ^ k1 * 16 := by rw [pow_succ]
      have := ih (n / 16) k1 hdiv hdivk hk2
      simp [List.length_append]
      omega

theorem natToHexAux_len_ge (fuel : Nat) :
    ∀ n k, n < fuel → 16 ^ k ≤ n → k + 1 ≤ (natToHexAux fuel n).length := by
  induction fuel with
  | zero => intro n k h; omega
  | succ f ih =>
    intro n k h hk
    unfold natToHexAux
    by_cases h16 : n < 16
    · rw [if_pos h16]
      have : k = 0 := by
        by_contra hcon
        have h1 : 1 ≤ k := by omega
        have : 16 ^ 1 ≤ 16 ^ k := Nat.pow_le_pow_right (by omega) h1
        simp [pow_one] at this
        omega
      subst this
      simp
    · rw [if_neg h16]
      cases k with
      | zero => simp [List.length_append]
      | succ k1 =>
        have hdiv : n / 16 < f := by
          have := Nat.div_lt_self (by omega : 0 < n) (by omega : 1 < 16)
          omega
        have hdivk : 16 ^ k1 ≤ n / 16 := by
          rw [Nat.le_div_iff_mul_le (by omega : 0 < 16)]
          calc 16 ^ k1 * 16 = 16 ^ (k1 + 1) := by rw [pow_succ]
          _ ≤ n := hk
        have := ih (n / 16) k1 hdiv hdivk
        simp [List.length_append]
        omega

theorem natToHex_ne_nil (n : Nat) : natToHex n ≠ [] :=
  natToHexAux_ne_nil (n + 1) n (by omega)

theorem natToHex_chars (n : Nat) : ∀ c ∈ natToHex n, isLowerHexB c = true :=
  natToHexAux_chars (n + 1) n (by omega)

theorem natToHex_len_le (n k : Nat) (hk : n < 16 ^ k) (h1 : 1 ≤ k) :
    (natToHex n).length ≤ k :=
  natToHexAux_len_le (n + 1) n k (by omega) hk h1

theorem natToHex_len_ge (n k : Nat) (hk : 16 ^ k ≤ n) :
    k + 1 ≤ (natToHex n).length :=
  natToHexAux_len_ge (n + 1) n k (by omega) hk

theorem natToHex_len_eq16 (n : Nat) (h15 : 16 ^ 15 ≤ n) (h16 : n < 16 ^ 16) :
    (natToHex n).length = 16 :=
  Nat.le_antisymm (natToHex_len_le n 16 h16 (by omega)) (natToHex_len_ge n 15 h15)

theorem goFmt16x_eq_hex (n : Nat) (h15 : 16 ^ 15 ≤ n) (h16 : n < 16 ^ 16) :
    goFmt16x n = natToHex n := by
  unfold goFmt16x
  rw [natToHex_len_eq16 n h15 h16]
  simp

theorem goFmt16x_len (n : Nat) (h : n < 16 ^ 16) : (goFmt16x n).length = 16 := by
  unfold goFmt16x
  have := natToHex_len_le n 16 h (by omega)
  simp [List.length_append, List.length_replicate]
  omega

theorem goFmt08x_len (n : Nat) (h : n < 16 ^ 8) : (goFmt08x n).length = 8 := by
  unfold goFmt08x
  have := natToHex_len_le n 8 h (by omega)
  simp [List.length_append, List.length_replicate]
  omega

theorem goFmt08x_chars (n : Nat) : ∀ c ∈ goFmt08x n, isLowerHexB c = true := by
  intro c hc
  unfold goFmt08x at hc
  rcases List.mem_append.mp hc with hm | hm
  · rcases List.eq_of_mem_replicate hm with rfl
    decide
  · exact natToHex_chars n c hm

theorem goFmt08x_ne_nil (n : Nat) : goFmt08x n ≠ [] := by
  unfold goFmt08x
  intro h
  exact natToHex_ne_nil n (List.append_eq_nil.mp h).2

theorem crcStep_lt (poly crc w : Nat) (hp : poly < 2 ^ w) (h : crc < 2 ^ w) :
    crcStep poly crc < 2 ^ w := by
  unfold crcStep
  have hdiv : crc / 2 < 2 ^ w := Nat.lt_of_le_of_lt (Nat.div_le_self crc 2) h
  split
  · exact Nat.xor_lt_two_pow hdiv hp
  · exact hdiv

theorem crcByte_lt (poly crc w : Nat) (hp : poly < 2 ^ w) (h : crc < 2 ^ w) :
    crcByte poly crc < 2 ^ w := by
  unfold crcByte
  iterate 8 apply crcStep_lt _ _ _ hp
  exact h

theorem crcFold_lt (poly w : Nat) (hp : poly < 2 ^ w) (hb : 256 ≤ 2 ^ w)
    (s : GoStr) :
    ∀ init, init < 2 ^ w →
      s.foldl (fun crc b => crcByte poly (crc ^^^ b % 256)) init < 2 ^ w := by
  induction s with
  | nil => intro init hi; exact hi
  | cons b rest ih =>
    intro init hi
    apply ih
    apply crcByte_lt _ _ _ hp
    exact Nat.xor_lt_two_pow hi
      (Nat.lt_of_lt_of_le (Nat.mod_lt b (by omega)) hb)

theorem crc64iso_lt (s : GoStr) : crc64iso s < 2 ^ 64 := by
  unfold crc64iso
  apply Nat.xor_lt_two_pow
  · exact crcFold_lt _ 64 (by norm_num) (by norm_num) s _ (by norm_num)
  · norm_num

theorem crc32ieee_lt (s : GoStr) : crc32ieee s < 2 ^ 32 := by
  unfold crc32ieee
  apply Nat.xor_lt_two_pow
  · exact crcFold_lt _ 32 (by norm_num) (by norm_num) s _ (by norm_num)
  · norm_num

theorem shortenName_eq_self (s : GoStr) (l : Int) (h : (s.length : Int) ≤ l) :
    shortenName s l = .ok s := by
  simp [shortenName, h]

theorem shortenName_eq64 (s : GoStr) (l : Int) (h1 : l < (s.length : Int))
    (h2 : 32 < l) :
    shortenName s l = .ok (s.take (l - 16).toNat ++ goFmt16x (crc64iso s)) := by
  unfold shortenName shortenName64
  rw [if_neg (by omega), if_pos h2, if_neg (by omega), if_neg (by omega)]

theorem shortenName_eq32 (s : GoStr) (l : Int) (h1 : l < (s.length : Int))
    (h2 : l ≤ 32) (h3 : 8 ≤ l) :
    shortenName s l = .ok (s.take (l - 8).toNat ++ goFmt08x (crc32ieee s)) := by
  unfold shortenName shortenName32
  rw [if_neg (by omega), if_neg (by omega), if_neg (by omega), if_neg (by omega)]

theorem shortenName_eqErr (s : GoStr) (l : Int) (h1 : l < (s.length : Int))
    (h2 : l < 8) :
    shortenName s l = .error (strBytes "cannot shorten below 8 characters") := by
  unfold shortenName shortenName32
  rw [if_neg (by omega), if_neg (by omega), if_neg (by omega), if_pos h2]

end Naming

/-! ### Claim C7 -/

/-- C7 counterexample: `c7str` (45 bytes) has CRC-64-ISO
`0x0ed149a9dfe9016d`, whose hex form has only 15 digits.  With bound 40,
`ShortenName` appends Go's `%16x` rendering - which pads with a SPACE -
so the suffix is NOT "the 16-character hex" (zero-padded, `specHex16`) of
the checksum, and the output contains a space byte. -/
theorem c7_counterexample :
    Naming.shortenName c7str 40 =
      .ok (c7str.take 24 ++ strBytes " ed149a9dfe9016d") ∧
    strBytes " ed149a9dfe9016d" ≠ specHex16 (Naming.crc64iso c7str) ∧
    (32 : Nat) ∈ Naming.goFmt16x (Naming.crc64iso c7str) :=
  ⟨rfl, by decide, by decide⟩

/-- C7 (amended): `ShortenName(s, L)` returns `s` unchanged when
`len(s) ≤ L`; otherwise, when `L > 32` it returns the first `L − 16`
bytes of `s` followed by the CRC-64 (ISO) of `s` rendered through Go's
`%16x` - 16 characters, but SPACE-padded (not zero-padded) when the
checksum has fewer than 16 hex digits; when `8 ≤ L ≤ 32` it returns the
first `L − 8` bytes followed by the zero-padded 8-character hex CRC-32
(IEEE); it fails with an error when the bound is below the chosen suffix
length (only reachable for the 8 case: `L > 32` already exceeds 16); and
every successful result has length at most `L`.  (Determinism is
inherent: the embedded function is pure.) -/
theorem c7_shorten_characterisation (s : GoStr) (l : Int) :
    ((s.length : Int) ≤ l → Naming.shortenName s l = .ok s) ∧
    (l < (s.length : Int) → 32 < l →
      Naming.shortenName s l =
        .ok (s.take (l - 16).toNat ++ Naming.goFmt16x (Naming.crc64iso s))) ∧
    (l < (s.length : Int) → l ≤ 32 → 8 ≤ l →
      Naming.shortenName s l =
        .ok (s.take (l - 8).toNat ++ Naming.goFmt08x (Naming.crc32ieee s))) ∧
    (l < (s.length : Int) → l < 8 →
      Naming.shortenName s l = .error (strBytes "cannot shorten below 8 characters")) ∧
    (∀ r, Naming.shortenName s l = .ok r → (r.length : Int) ≤ l) := by
  have h16len : (Naming.goFmt16x (Naming.crc64iso s)).length = 16 :=
    Naming.goFmt16x_len _ (by
      have := Naming.crc64iso_lt s
      norm_num at this ⊢
      omega)
  have h08len : (Naming.goFmt08x (Naming.crc32ieee s)).length = 8 :=
    Naming.goFmt08x_len _ (by
      have := Naming.crc32ieee_lt s
      norm_num at this ⊢
      omega)
  have heq1 : ∀ _ : (s.length : Int) ≤ l, Naming.shortenName s l = .ok s :=
    fun h => Naming.shortenName_eq_self s l h
  have heq2 := Naming.shortenName_eq64 s l
  have heq3 := Naming.shortenName_eq32 s l
  have heq4 := Naming.shortenName_eqErr s l
  refine ⟨heq1, heq2, heq3, heq4, ?_⟩
  intro r hr
  by_cases h1 : (s.length : Int) ≤ l
  · rw [heq1 h1] at hr
    cases hr
    exact h1
  · push_neg at h1
    by_cases h2 : 32 < l
    · rw [heq2 h1 h2] at hr
      cases hr
      have htake : ((l - 16).toNat : Int) = l - 16 := by omega
      have hmin : (l - 16).toNat ≤ s.length := by omega
      simp [List.length_append, List.length_take, h16len]
      omega
    · push_neg at h2
      by_cases h3 : 8 ≤ l
      · rw [heq3 h1 h2 h3] at hr
        cases hr
        have hmin : (l - 8).toNat ≤ s.length := by omega
        simp [List.length_append, List.length_take, h08len]
        omega
      · rw [heq4 h1 (by omega)] at hr
        cases hr

/-- C7 witness: a short name is returned unchanged. -/
theorem c7_shorten_witness :
    ((strBytes "data-web-0").length : Int) ≤ 27 ∧
    Naming.shortenName (strBytes "data-web-0") 27 = .ok (strBytes "data-web-0") :=
  ⟨by decide, (c7_shorten_characterisation (strBytes "data-web-0") 27).1 (by decide)⟩

/-! ### Character lemmas for claim C8 -/

theorem goLowerChar_of_lowerAlnum (c : Nat) (h : isLowerAlnumB c = true) :
    goLowerChar c = c := by
  simp only [isLowerAlnumB, Bool.or_eq_true, Bool.and_eq_true, decide_eq_true_eq] at h
  unfold goLowerChar
  rw [if_neg (by omega)]

theorem lowerAlnum_goLowerChar_of_q (c : Nat)
    (h : isDigitB c = true ∨ isAsciiLetterB c = true) :
    isLowerAlnumB (goLowerChar c) = true := by
  simp only [isDigitB, isAsciiLetterB, Bool.or_eq_true, Bool.and_eq_true,
    decide_eq_true_eq] at h
  simp only [goLowerChar, isLowerAlnumB, Bool.or_eq_true, Bool.and_eq_true,
    decide_eq_true_eq]
  split <;> omega

theorem lowerAlnum_of_hex (c : Nat) (h : isLowerHexB c = true) :
    isLowerAlnumB c = true := by
  simp only [isLowerHexB, Bool.or_eq_true, Bool.and_eq_true, decide_eq_true_eq] at h
  simp only [isLowerAlnumB, Bool.or_eq_true, Bool.and_eq_true, decide_eq_true_eq]
  omega

theorem backupSuffixChars :
    ∀ d ∈ strBytes "-backup-", isLowerAlnumB (goLowerChar d) = true ∨ goLowerChar d = 45 := by
  decide

theorem matchesLabelRegex_true (s : GoStr) (hne : s ≠ [])
    (hall : ∀ c ∈ s, isLowerAlnumB c = true ∨ c = 45)
    (hh : ∀ c ∈ s.head?, isLowerAlnumB c = true)
    (hl : ∀ c ∈ s.getLast?, isLowerAlnumB c = true) :
    matchesLabelRegex s = true := by
  obtain ⟨a, t, rfl⟩ : ∃ a t, s = a :: t := by
    cases s with
    | nil => exact absurd rfl hne
    | cons a t => exact ⟨a, t, rfl⟩
  cases hgl : (a :: t).getLast? with
  | none => simp [List.getLast?_eq_none_iff] at hgl
  | some b =>
    unfold matchesLabelRegex
    rw [List.head?_cons, hgl]
    dsimp only
    have ha : isLowerAlnumB a = true := hh a (by simp)
    have hb : isLowerAlnumB b = true := hl b (by rw [hgl]; simp)
    rw [ha, hb]
    simp only [Bool.true_and]
    rw [List.all_eq_true]
    intro c hc
    rcases hall c hc with h | rfl
    · simp [h]
    · simp

theorem backupName_regex_helper (A q : GoStr) (hq : q ≠ [])
    (hqc : ∀ c ∈ q, isDigitB c = true ∨ isAsciiLetterB c = true)
    (hAchars : ∀ d ∈ A, isLowerAlnumB (goLowerChar d) = true ∨ goLowerChar d = 45)
    (hAhead : ∀ d ∈ (A ++ (strBytes "-backup-" ++ q)).head?,
      isLowerAlnumB (goLowerChar d) = true) :
    matchesLabelRegex (goToLower (A ++ (strBytes "-backup-" ++ q))) = true := by
  have hsuffne : (strBytes "-backup-" ++ q) ≠ [] := by
    simp [strBytes]
  apply matchesLabelRegex_true
  · intro hcon
    have h1 := congrArg List.length hcon
    simp only [goToLower, List.length_map, List.length_append, List.length_nil] at h1
    have h2 : q.length ≠ 0 := by
      intro h3
      exact hq (List.eq_nil_of_length_eq_zero h3)
    omega
  · intro c hc
    obtain ⟨d, hd, rfl⟩ := List.mem_map.mp hc
    rcases List.mem_append.mp hd with hdA | hds
    · exact hAchars d hdA
    · rcases List.mem_append.mp hds with hdb | hdq
      · exact backupSuffixChars d hdb
      · exact Or.inl (lowerAlnum_goLowerChar_of_q d (hqc d hdq))
  · intro c hc
    rw [goToLower, head?_map_eq] at hc
    cases ho : (A ++ (strBytes "-backup-" ++ q)).head? with
    | none => rw [ho] at hc; simp at hc
    | some d =>
      rw [ho] at hc
      simp only [Option.map_some', Option.mem_def, Option.some.injEq] at hc
      subst hc
      exact hAhead d (by rw [ho]; simp)
  · intro c hc
    rw [goToLower, getLast?_map_eq] at hc
    have hfull : (A ++ (strBytes "-backup-" ++ q)).getLast? = q.getLast? := by
      rw [List.getLast?_append_of_ne_nil _ hsuffne,
        List.getLast?_append_of_ne_nil _ hq]
    rw [hfull] at hc
    cases ho : q.getLast? with
    | none => rw [ho] at hc; simp at hc
    | some b =>
      rw [ho] at hc
      simp only [Option.map_some', Option.mem_def, Option.some.injEq] at hc
      subst hc
      have hbq : b ∈ q := List.mem_of_mem_getLast? (by rw [ho]; simp)
      exact lowerAlnum_goLowerChar_of_q b (hqc b hbq)

theorem okGetD (x : GoStr) :
    ((Except.ok x : Except GoStr GoStr).toOption.getD []) = x := rfl

/-- C8 counterexample: the descriptor `c8entity` (45-byte source name with
CRC-64 `0x0ed149a9dfe9016d`, 15-character size string) gets a backup name
containing the SPACE byte from Go's `%16x` padding, so it does not match
`[a-z0-9]([-a-z0-9]*[a-z0-9])?` - refuting the regex conjunct of the
claim. -/
theorem c8_counterexample :
    matchesLabelRegex (Pvc.backupName c8entity) = false ∧
    (32 : Nat) ∈ Pvc.backupName c8entity :=
  ⟨rfl, by decide⟩

/-- C8 (amended): `P.BackupName()` equals
`lowercase(shorten(sourceName, 63 − len(suffix)) + suffix)` with
`suffix = "-backup-<size-string>"`, and depends only on
`(P.sourceName, P.spec.requests.storage)`.  For well-formed inputs
(DNS-label source name, alphanumeric size string of at most 47 bytes) the
result is at most 63 characters - unconditionally, since Go's `%16x`
always yields a 16-byte field; it matches
`[a-z0-9]([-a-z0-9]*[a-z0-9])?` PROVIDED the name needs no CRC-64
shortening, or the CRC-64 branch is not taken, or the CRC-64 of the
source name has a full 16 hex digits - otherwise Go's `%16x` pads the
hash with spaces and the regex fails (see the counterexample). -/
theorem c8_backupName_characterisation (pi : Pvc.Entity)
    (hsn : pi.sourceName ≠ [])
    (hsc : ∀ c ∈ pi.sourceName, isLowerAlnumB c = true ∨ c = 45)
    (hhead : ∀ c ∈ pi.sourceName.head?, isLowerAlnumB c = true)
    (hq : pi.spec.reqStorage.str ≠ [])
    (hqc : ∀ c ∈ pi.spec.reqStorage.str, isDigitB c = true ∨ isAsciiLetterB c = true)
    (hqlen : pi.spec.reqStorage.str.length ≤ 47) :
    Pvc.backupName pi = goToLower ((Naming.shortenName pi.sourceName
        (63 - ((strBytes "-backup-" ++ pi.spec.reqStorage.str).length : Int))).toOption.getD []
        ++ (strBytes "-backup-" ++ pi.spec.reqStorage.str)) ∧
    (∀ e2 : Pvc.Entity, pi.sourceName = e2.sourceName →
      pi.spec.reqStorage.str = e2.spec.reqStorage.str →
      Pvc.backupName pi = Pvc.backupName e2) ∧
    (Pvc.backupName pi).length ≤ 63 ∧
    (((pi.sourceName.length : Int) ≤ 55 - (pi.spec.reqStorage.str.length : Int) ∨
      (55 : Int) - (pi.spec.reqStorage.str.length : Int) ≤ 32 ∨
      16 ^ 15 ≤ Naming.crc64iso pi.sourceName) →
    matchesLabelRegex (Pvc.backupName pi) = true) := by
  have hdep : ∀ e2 : Pvc.Entity, pi.sourceName = e2.sourceName →
      pi.spec.reqStorage.str = e2.spec.reqStorage.str →
      Pvc.backupName pi = Pvc.backupName e2 := by
    intro e2 h1 h2
    unfold Pvc.backupName
    dsimp only
    rw [h1, h2]
  set sn := pi.sourceName with hsndef
  set q := pi.spec.reqStorage.str with hqdef
  have hql : (strBytes "-backup-" ++ q).length = 8 + q.length := by
    simp [strBytes]
    omega
  set l : Int := 63 - ((strBytes "-backup-" ++ q).length : Int) with hldef
  have hbn : Pvc.backupName pi =
      goToLower ((Naming.shortenName sn l).toOption.getD []
        ++ (strBytes "-backup-" ++ q)) := rfl
  have hl55 : l = 55 - (q.length : Int) := by
    rw [hldef, hql]
    push_cast
    ring
  have hl8 : (8 : Int) ≤ l := by
    rw [hl55]
    omega
  have hqne0 : q.length ≠ 0 := fun h3 => hq (List.eq_nil_of_length_eq_zero h3)
  have hsnne0 : sn.length ≠ 0 := fun h3 => hsn (List.eq_nil_of_length_eq_zero h3)
  have hsnchars : ∀ d ∈ sn, isLowerAlnumB (goLowerChar d) = true ∨ goLowerChar d = 45 := by
    intro d hd
    rcases hsc d hd with h | rfl
    · exact Or.inl (by rw [goLowerChar_of_lowerAlnum d h]; exact h)
    · exact Or.inr rfl
  have hlen : (Pvc.backupName pi).length ≤ 63 := by
    by_cases hA : (sn.length : Int) ≤ l
    · rw [hbn, Naming.shortenName_eq_self sn l hA, okGetD]
      simp only [goToLower, List.length_map, List.length_append, hql]
      omega
    · push_neg at hA
      by_cases hB : 32 < l
      · have h64 : Naming.crc64iso sn < 16 ^ 16 := by
          have := Naming.crc64iso_lt sn
          norm_num at this ⊢
          omega
        have hfmtlen : (Naming.goFmt16x (Naming.crc64iso sn)).length = 16 :=
          Naming.goFmt16x_len _ h64
        have hkle : (l - 16).toNat ≤ sn.length := by omega
        have htakelen : (sn.take (l - 16).toNat).length = (l - 16).toNat := by
          rw [List.length_take]
          exact Nat.min_eq_left hkle
        rw [hbn, Naming.shortenName_eq64 sn l hA hB, okGetD]
        simp only [goToLower, List.length_map, List.length_append, hql,
          hfmtlen, htakelen]
        omega
      · push_neg at hB
        have h08 : Naming.crc32ieee sn < 16 ^ 8 := by
          have := Naming.crc32ieee_lt sn
          norm_num at this ⊢
          omega
        have hfmtlen : (Naming.goFmt08x (Naming.crc32ieee sn)).length = 8 :=
          Naming.goFmt08x_len _ h08
        have hkle : (l - 8).toNat ≤ sn.length := by omega
        have htakelen : (sn.take (l - 8).toNat).length = (l - 8).toNat := by
          rw [List.length_take]
          exact Nat.min_eq_left hkle
        rw [hbn, Naming.shortenName_eq32 sn l hA hB hl8, okGetD]
        simp only [goToLower, List.length_map, List.length_append, hql,
          hfmtlen, htakelen]
        omega
  have hregex : ((sn.length : Int) ≤ 55 - (q.length : Int) ∨
      (55 : Int) - (q.length : Int) ≤ 32 ∨
      16 ^ 15 ≤ Naming.crc64iso sn) →
      matchesLabelRegex (Pvc.backupName pi) = true := by
    intro hcrc
    by_cases hA : (sn.length : Int) ≤ l
    · have hname := Naming.shortenName_eq_self sn l hA
      have hfull : Pvc.backupName pi =
          goToLower (sn ++ (strBytes "-backup-" ++ q)) := by
        rw [hbn, hname, okGetD]
      rw [hfull]
      apply backupName_regex_helper _ _ hq hqc hsnchars
      intro d hd
      rw [List.head?_append_of_ne_nil _ hsn] at hd
      have hda := hhead d hd
      rw [goLowerChar_of_lowerAlnum d hda]
      exact hda
    · push_neg at hA
      by_cases hB : 32 < l
      · have hcrc16 : 16 ^ 15 ≤ Naming.crc64iso sn := by
          rcases hcrc with h | h | h
          · rw [← hl55] at h; omega
          · rw [← hl55] at h; omega
          · exact h
        have h64 : Naming.crc64iso sn < 16 ^ 16 := by
          have := Naming.crc64iso_lt sn
          norm_num at this ⊢
          omega
        have hhex : Naming.goFmt16x (Naming.crc64iso sn) =
            Naming.natToHex (Naming.crc64iso sn) :=
          Naming.goFmt16x_eq_hex _ hcrc16 h64
        have hname := Naming.shortenName_eq64 sn l hA hB
        have hfull : Pvc.backupName pi =
            goToLower ((sn.take (l - 16).toNat ++ Naming.natToHex (Naming.crc64iso sn))
              ++ (strBytes "-backup-" ++ q)) := by
          rw [hbn, hname, okGetD, hhex]
        have hkle : (l - 16).toNat ≤ sn.length := by omega
        have htakelen : (sn.take (l - 16).toNat).length = (l - 16).toNat := by
          rw [List.length_take]
          exact Nat.min_eq_left hkle
        have htakene : sn.take (l - 16).toNat ≠ [] := by
          intro hcon
          have h1 := congrArg List.length hcon
          rw [htakelen] at h1
          simp at h1
          omega
        rw [hfull]
        apply backupName_regex_helper _ _ hq hqc
        · intro d hd
          rcases List.mem_append.mp hd with hdt | hdh
          · exact hsnchars d (List.take_subset _ _ hdt)
          · have hx := lowerAlnum_of_hex d (Naming.natToHex_chars _ d hdh)
            exact Or.inl (by rw [goLowerChar_of_lowerAlnum d hx]; exact hx)
        · intro d hd
          rw [List.append_assoc, List.head?_append_of_ne_nil _ htakene,
            head?_take_pos sn _ (by omega)] at hd
          have hda := hhead d hd
          rw [goLowerChar_of_lowerAlnum d hda]
          exact hda
      · push_neg at hB
        have hname := Naming.shortenName_eq32 sn l hA hB hl8
        have hfull : Pvc.backupName pi =
            goToLower ((sn.take (l - 8).toNat ++ Naming.goFmt08x (Naming.crc32ieee sn))
              ++ (strBytes "-backup-" ++ q)) := by
          rw [hbn, hname, okGetD]
        have hkle : (l - 8).toNat ≤ sn.length := by omega
        have htakelen : (sn.take (l - 8).toNat).length = (l - 8).toNat := by
          rw [List.length_take]
          exact Nat.min_eq_left hkle
        rw [hfull]
        apply backupName_regex_helper _ _ hq hqc
        · intro d hd
          rcases List.mem_append.mp hd with hdt | hdh
          · exact hsnchars d (List.take_subset _ _ hdt)
          · have hx := lowerAlnum_of_hex d (Naming.goFmt08x_chars _ d hdh)
            exact Or.inl (by rw [goLowerChar_of_lowerAlnum d hx]; exact hx)
        · intro d hd
          by_cases hk : (l - 8).toNat = 0
          · rw [hk] at hd
            simp only [List.take_zero, List.nil_append, List.append_assoc] at hd
            rw [List.head?_append_of_ne_nil _ (Naming.goFmt08x_ne_nil _)] at hd
            have hdm : d ∈ Naming.goFmt08x (Naming.crc32ieee sn) :=
              List.mem_of_mem_head? hd
            have hx := lowerAlnum_of_hex d (Naming.goFmt08x_chars _ d hdm)
            rw [goLowerChar_of_lowerAlnum d hx]
            exact hx
          · have htakene : sn.take (l - 8).toNat ≠ [] := by
              intro hcon
              have h1 := congrArg List.length hcon
              rw [htakelen] at h1
              simp at h1
              omega
            rw [List.append_assoc, List.head?_append_of_ne_nil _ htakene,
              head?_take_pos sn _ (by omega)] at hd
            have hda := hhead d hd
            rw [goLowerChar_of_lowerAlnum d hda]
            exact hda
  exact ⟨hbn, hdep, hlen, hregex⟩

/-- C8 witness: a short-named descriptor (`data-web-0`, 1G) keeps every
claimed invariant including the regex; the space-padded descriptor
`c8entity` still satisfies the unconditional length bound. -/
theorem c8_backupName_witness :
    ((Pvc.backupName c8entityW).length ≤ 63 ∧
      matchesLabelRegex (Pvc.backupName c8entityW) = true) ∧
    (Pvc.backupName c8entity).length ≤ 63 := by
  have h := c8_backupName_characterisation c8entityW (by decide) (by decide)
    (by decide) (by decide) (by decide) (by decide)
  have h2 := c8_backupName_characterisation c8entity (by decide) (by decide)
    (by decide) (by decide) (by decide) (by decide)
  exact ⟨⟨h.2.2.1, h.2.2.2 (Or.inl (by decide))⟩, h2.2.2.1⟩
